import Mathlib

/-!
# Verification of the `office_templates` templating and rendering engine

A shallow embedding, in Lean 4, of the Python modules
`office_templates/templating/{resolver,parser,permissions,core}.py` and
`office_templates/office_renderer/{loops,pptx}.py`, together with theorems
settling the behavioural claims about expression resolution, permission
enforcement, loop planning and the top-level result contract.

Python values are modelled by the inductive type `Value`; Python exceptions by
`PyErr` through the `Except` monad.  Callables are defunctionalised: a callable
value either returns a fixed value when invoked or raises (`Value.func`).
Attribute lookup on built-in scalar types (methods of `int`, `str`, `list`, …)
is not modelled: looking an attribute up on such a value yields `Value.none`,
exactly as `getattr(obj, part, None)` does for an attribute the object lacks.
`float` literals are not modelled (no claim below involves them); a literal
that Python would parse as a float is kept as its raw string, which has the
same string cast on canonical decimal forms.
-/

namespace OfficeTemplates

/-- Model of a Python runtime value as used by the templating engine.
`func b` is a defunctionalised callable: invoking it returns `v` when
`b = some v` and raises when `b = none`.  `dict` and `obj` carry association
lists of string keys/attribute names (first binding wins on lookup). -/
inductive Value where
  | none : Value
  | bool (b : Bool) : Value
  | int (n : Int) : Value
  | str (s : String) : Value
  | list (items : List Value) : Value
  | dict (entries : List (String × Value)) : Value
  | obj (attrs : List (String × Value)) : Value
  | func (behavior : Option Value) : Value

/-- Model of the Python exceptions raised by the engine.  `badTag`,
`missingData` and `tagCallable` embed the exception classes of
`templating/exceptions.py`; `typeError` and `valueError` embed the built-in
`TypeError` and `ValueError`; `pyException` stands for any other uncaught
exception escaping a callable. -/
inductive PyErr where
  | badTag (msg : String) : PyErr
  | missingData (msg : String) : PyErr
  | tagCallable (msg : String) : PyErr
  | typeError (msg : String) : PyErr
  | valueError (msg : String) : PyErr
  | pyException (msg : String) : PyErr
deriving DecidableEq, Repr

/-- Python's `value is None` test. -/
def Value.isNone : Value → Bool
  | Value.none => true
  | _ => false

/-- Python's `isinstance(value, list)` test. -/
def Value.isList : Value → Bool
  | Value.list _ => true
  | _ => false

/-- First-match association-list lookup: Python `dict` lookup / `getattr` on
the modelled attribute table. -/
def assocGet (entries : List (String × Value)) (key : String) : Option Value :=
  match entries with
  | [] => Option.none
  | (k, v) :: rest => if k = key then some v else assocGet rest key

/-- `str(n)` for a Python `int`. -/
def pyIntStr (n : Int) : String := toString n

/-- `s.strip()`: remove leading and trailing whitespace (kernel-reducible
replacement for `String.trim`). -/
def strTrim (s : String) : String :=
  (((s.toList.dropWhile Char.isWhitespace).reverse.dropWhile Char.isWhitespace).reverse).asString

/-- ASCII `c.lower()`. -/
def asciiLowerChar (c : Char) : Char :=
  if 'A' ≤ c ∧ c ≤ 'Z' then Char.ofNat (c.toNat + 32) else c

/-- ASCII `s.lower()` (the literals compared against are ASCII). -/
def asciiLower (s : String) : String := (s.toList.map asciiLowerChar).asString

/-- Worker for `s.split("__")`. -/
def splitDunderAux (cur : List Char) : List Char → List String
  | '_' :: '_' :: rest => cur.reverse.asString :: splitDunderAux [] rest
  | c :: rest => splitDunderAux (c :: cur) rest
  | [] => [cur.reverse.asString]

/-- `s.split("__")` (kernel-reducible replacement for `String.splitOn`). -/
def splitDunder (s : String) : List String := splitDunderAux [] s.toList

/-- Worker for single-character splits. -/
def splitCharAux (sep : Char) (cur : List Char) : List Char → List String
  | [] => [cur.reverse.asString]
  | c :: rest =>
    if c = sep then cur.reverse.asString :: splitCharAux sep [] rest
    else splitCharAux sep (c :: cur) rest

/-- `s.split(sep)` for a one-character separator. -/
def splitChar (sep : Char) (s : String) : List String := splitCharAux sep [] s.toList

mutual

/-- `str(value)` (flag `false`) and `repr(value)` (flag `true`) for the
modelled values: `repr` differs from `str` only by quoting strings.  A list
displays the comma-joined `repr`s of its elements, as Python does; `obj`,
`dict` and `func` values have implementation-defined display, modelled by
fixed tokens. -/
def pyStrCore : Bool → Value → String
  | _, Value.none => "None"
  | _, Value.bool true => "True"
  | _, Value.bool false => "False"
  | _, Value.int n => pyIntStr n
  | true, Value.str s => "'" ++ s ++ "'"
  | false, Value.str s => s
  | _, Value.list items => "[" ++ String.intercalate ", " (pyReprList items) ++ "]"
  | _, Value.dict entries => "\x7bdict of " ++ toString entries.length ++ "\x7d"
  | _, Value.obj _ => "<object>"
  | _, Value.func _ => "<function>"

/-- The element `repr`s of a list, for `str(list)`. -/
def pyReprList : List Value → List String
  | [] => []
  | v :: rest => pyStrCore true v :: pyReprList rest

end

/-- `str(value)`. -/
def pyStr (v : Value) : String := pyStrCore false v

/-! ## `templating/resolver.py` -/

/-- Python `\w` on ASCII input: letters, digits and underscore. -/
def isWordChar (c : Char) : Bool := c.isAlphanum || c = '_'

/-- `int(s)` after stripping: optional sign followed by at least one digit
(digit-group underscores are not modelled). Returns `none` when `int()` would
raise `ValueError`. -/
def pyIntParse (s : String) : Option Int :=
  let cs := s.toList
  let (sign, digits) :=
    match cs with
    | '-' :: rest => ((-1 : Int), rest)
    | '+' :: rest => ((1 : Int), rest)
    | rest => ((1 : Int), rest)
  if digits ≠ [] ∧ digits.all Char.isDigit then
    some (sign * (digits.foldl (fun acc c => acc * 10 + (c.toNat - '0'.toNat)) (0 : Nat) : Nat))
  else
    Option.none

/-- `parse_value` (`resolver.py`): convert a literal string to a Python value —
`true`/`false` (case-insensitive) to booleans, else integer parse, else strip
matching surrounding quotes, else the raw string.  (The float branch of the
source is not modelled; see the module comment.) -/
def parse_value (valStr : String) : Value :=
  let t := strTrim valStr
  if asciiLower t = "true" then Value.bool true
  else if asciiLower t = "false" then Value.bool false
  else
    match pyIntParse t with
    | some n => Value.int n
    | Option.none =>
      let cs := t.toList
      if cs.length ≥ 1 ∧
          ((cs.head? = some '"' ∧ cs.getLast? = some '"') ∨
           (cs.head? = some '\'' ∧ cs.getLast? = some '\'')) then
        Value.str ((cs.drop 1).dropLast.asString)
      else Value.str t

/-- One lookup step of `get_nested_attr`: dict lookup by key, object lookup by
attribute, both defaulting to `None`; any other value yields `None` (built-in
attributes of primitive types are not modelled). -/
def attrLookup (obj : Value) (part : String) : Value :=
  match obj with
  | Value.dict entries => (assocGet entries part).getD Value.none
  | Value.obj attrs => (assocGet attrs part).getD Value.none
  | _ => Value.none

/-- The auto-invocation step of `get_nested_attr`: a callable retrieved value
is called with no arguments; an exception inside the call is converted to
`BadTagException(f"{attr} failed when calling")`. -/
def autoCall (v : Value) (attr : String) : Except PyErr Value :=
  match v with
  | Value.func (some ret) => Except.ok ret
  | Value.func Option.none => Except.error (PyErr.badTag (attr ++ " failed when calling"))
  | v => Except.ok v

/-- The loop of `get_nested_attr` over the `"__"`-separated parts: at each
part, return `None` if the current object is `None`, else look the part up and
auto-invoke a callable result. -/
def getNestedParts (attr : String) (obj : Value) : List String → Except PyErr Value
  | [] => Except.ok obj
  | part :: rest => do
    if obj.isNone then
      Except.ok Value.none
    else
      let v ← autoCall (attrLookup obj part) attr
      getNestedParts attr v rest

/-- `get_nested_attr` (`resolver.py`): retrieve an attribute chain separated by
`"__"` from an object or dict, returning `None` (never raising a lookup error)
when a link is absent. -/
def get_nested_attr (obj : Value) (attr : String) : Except PyErr Value :=
  getNestedParts attr obj (splitDunder attr)

/-- `re.match(r"([\w__]+)\s*=\s*(.+)", cond)`: a maximal nonempty run of word
characters, optional spaces, `=`, optional spaces, then a nonempty remainder. -/
def parseCondition (cond : String) : Option (String × String) :=
  let cs := cond.toList
  let key := cs.takeWhile isWordChar
  let rest := cs.drop key.length
  if key = [] then Option.none
  else
    let rest := rest.dropWhile Char.isWhitespace
    match rest with
    | '=' :: rest2 =>
      let v := rest2.dropWhile Char.isWhitespace
      if v = [] then Option.none else some (key.asString, v.asString)
    | _ => Option.none

/-- `evaluate_condition` (`resolver.py`): parse `attribute=value`, coerce the
literal with `parse_value`, look the attribute chain up on the item, and
compare the two by string cast. -/
def evaluate_condition (item : Value) (condition : String) : Except PyErr Bool :=
  match parseCondition condition with
  | Option.none => Except.ok false
  | some (attrChain, valueStr) => do
    let expected := parse_value valueStr
    let actual ← get_nested_attr item attrChain
    Except.ok (pyStr actual = pyStr expected)

/-- Modelled from the spec: `parse_callable_args` is imported by
`templating/parser.py` from `templating/resolver.py` but is absent from the
source tree.  Per §4.2 step 3 of the spec, explicit literal arguments are
"parsed (each argument typed as boolean keyword, integer, float, or
quoted/bare string)"; modelled as a comma split with each piece coerced by the
same literal coercion used for filter values, and no arguments for a blank
string. -/
def parse_callable_args (s : String) : List Value :=
  if strTrim s = "" then []
  else (splitChar ',' s).map (fun piece => parse_value (strTrim piece))

/-! ## `templating/parser.py` -/

/-- Count of a character's occurrences in a string (`segment.count(c)`). -/
def countChar (s : String) (c : Char) : Nat := (s.toList.filter (fun d => d = c)).length

/-- Lookahead of `re.split(r"\.(?![^\[]*\])", expr)`: after a dot, the split is
suppressed exactly when some run of non-`[` characters is followed by `]`,
i.e. when the next bracket character to occur is a closing one. -/
def dotInFilter : List Char → Bool
  | [] => false
  | '[' :: _ => false
  | ']' :: _ => true
  | _ :: rest => dotInFilter rest

/-- Character-level worker for `split_expression`. -/
def splitExprAux (cur : List Char) : List Char → List String
  | [] => [cur.reverse.asString]
  | '.' :: rest =>
    if dotInFilter rest then splitExprAux ('.' :: cur) rest
    else cur.reverse.asString :: splitExprAux [] rest
  | c :: rest => splitExprAux (c :: cur) rest

/-- `split_expression` (`parser.py`): split an expression into segments by
periods, ignoring periods inside `[ ]`. -/
def split_expression (expr : String) : List String := splitExprAux [] expr.toList

/-- `BAD_SEGMENT_PATTERN = re.compile(r"^[#%]*$")`: a segment fully matches
exactly when every character is `#` or `%` (the empty segment matches too). -/
def isBadSegment (s : String) : Bool := s.toList.all (fun c => c = '#' || c = '%')

/-- The tail `(?:\[(.*?)\])?$` of the segment regex: either the end of the
segment, or a bracketed filter clause running to the final character. -/
def bracketTail (cs : List Char) : Option (Option String) :=
  match cs with
  | [] => some Option.none
  | '[' :: r =>
    if r ≠ [] ∧ r.getLast? = some ']' then some (some r.dropLast.asString)
    else Option.none
  | _ => Option.none

/-- The lazy group `\((.*?)\)` of the segment regex followed by the bracket
tail: scan for the earliest `)` whose remainder matches the bracket tail. -/
def lazyParen (acc : List Char) : List Char → Option (String × Option String)
  | [] => Option.none
  | ')' :: t =>
    match bracketTail t with
    | some filt => some (acc.reverse.asString, filt)
    | Option.none => lazyParen (')' :: acc) t
  | c :: t => lazyParen (c :: acc) t

/-- `re.match(r"^(\w+(?:__\w+)*)(?:\((.*?)\))?(?:\[(.*?)\])?$", segment)`:
returns the attribute name, the optional callable-argument group and the
optional filter group. -/
def matchSegment (segment : String) : Option (String × Option String × Option String) :=
  let cs := segment.toList
  let w := cs.takeWhile isWordChar
  let rest := cs.drop w.length
  if w = [] then Option.none
  else
    match rest with
    | [] => some (w.asString, Option.none, Option.none)
    | '(' :: r =>
      match lazyParen [] r with
      | some (args, filt) => some (w.asString, some args, filt)
      | Option.none => Option.none
    | '[' :: r =>
      if r ≠ [] ∧ r.getLast? = some ']' then
        some (w.asString, Option.none, some r.dropLast.asString)
      else Option.none
    | _ => Option.none

/-- Invoke a defunctionalised callable with (ignored) arguments: it returns
its fixed value or raises. -/
def callFunc (behavior : Option Value) : Except PyErr Value :=
  match behavior with
  | some ret => Except.ok ret
  | Option.none => Except.error (PyErr.pyException "callable raised")

/-- `hasattr(value, name) and callable(getattr(value, name))` for the modelled
values: true exactly when an `obj` carries a callable under that name. -/
def hasCallableAttr (value : Value) (name : String) : Bool :=
  match value with
  | Value.obj attrs =>
    match assocGet attrs name with
    | some (Value.func _) => true
    | _ => false
  | _ => false

/-- The callable-attribute itself, for `value.filter` / `value.all` calls. -/
def getCallableAttr (value : Value) (name : String) : Option Value :=
  match value with
  | Value.obj attrs => assocGet attrs name
  | _ => Option.none

/-- `list(value)`: materialise a Python iterable into a list, raising
`TypeError` on a non-iterable value.  Lists yield their items, strings their
characters, dicts their keys; every other modelled value is non-iterable. -/
def pyToList (value : Value) : Except PyErr (List Value) :=
  match value with
  | Value.list items => Except.ok items
  | Value.str s => Except.ok (s.toList.map (fun c => Value.str (String.singleton c)))
  | Value.dict entries => Except.ok (entries.map (fun e => Value.str e.fst))
  | Value.none => Except.error (PyErr.typeError "'NoneType' object is not iterable")
  | Value.bool _ => Except.error (PyErr.typeError "'bool' object is not iterable")
  | Value.int _ => Except.error (PyErr.typeError "'int' object is not iterable")
  | Value.obj _ => Except.error (PyErr.typeError "'object' object is not iterable")
  | Value.func _ => Except.error (PyErr.typeError "'function' object is not iterable")

/-- `all(evaluate_condition(item, cond) for cond in conditions)`: conditions
evaluated left to right, short-circuiting on the first `False`; an exception
inside a condition propagates. -/
def condAll (item : Value) : List String → Except PyErr Bool
  | [] => Except.ok true
  | cond :: rest => do
    let b ← evaluate_condition item cond
    if b then condAll item rest else Except.ok false

/-- The filter comprehension of `resolve_segment`:
`[item for item in value_list if all(evaluate_condition(item, cond) ...)]`. -/
def filterItems (conditions : List String) : List Value → Except PyErr (List Value)
  | [] => Except.ok []
  | item :: rest => do
    let keep ← condAll item conditions
    let tail ← filterItems conditions rest
    Except.ok (if keep then item :: tail else tail)

/-- The exact `TypeError` produced by the call
`enforce_permissions(value_item, perm_user)` in `resolve_segment`
(`parser.py` line 183): `enforce_permissions` (`permissions.py`) declares five
required positional parameters, so a two-argument call raises before the
function body runs. -/
def enforcePermissionsArityMsg : String :=
  "enforce_permissions() missing 3 required positional arguments: 'errors', 'request_user', and 'check_permissions'"

/-- The two-argument call `enforce_permissions(value_item, perm_user)` made by
`resolve_segment`: it raises `TypeError` at call time for every item, because
the callee requires five positional arguments. -/
def enforcePermissionsCall2 : Except PyErr Unit :=
  Except.error (PyErr.typeError enforcePermissionsArityMsg)

/-- The per-item loop `for value_item in value_list: enforce_permissions(...)`
of `resolve_segment`: no iterations on an empty list, otherwise the first
iteration's arity `TypeError` propagates. -/
def enforceLoop : List Value → Except PyErr Unit
  | [] => Except.ok ()
  | _ :: _ => do
    let _ ← enforcePermissionsCall2
    Except.ok ()

/-- The explicit-invocation branch of `resolve_segment` (lines 139-150): when
a `(...)` group was parsed, a non-callable value raises `NotCallable`, and a
callable is invoked on the parsed literal arguments with an exception wrapped
into `NotCallable`. -/
def invokeStep (attr : String) (callArgs : Option String) (value : Value) :
    Except PyErr Value :=
  match callArgs with
  | Option.none => Except.ok value
  | some argsStr =>
    match value with
    | Value.func b =>
      let args := parse_callable_args argsStr
      match callFunc b with
      | Except.ok v => Except.ok v
      | Except.error _ =>
        Except.error (PyErr.tagCallable
          ("Error calling '" ++ attr ++ "' with arguments " ++ pyStr (Value.list args)
            ++ ": callable raised"))
    | _ => Except.error (PyErr.tagCallable ("Attribute '" ++ attr ++ "' is not callable."))

/-- `value is not None and hasattr(value, "filter") and callable(value.filter)`. -/
def hasFilterCap (value : Value) : Bool :=
  !value.isNone && hasCallableAttr value "filter"

/-- The `QuerySet`-like branch of `resolve_segment` (lines 153-171): with a
non-blank filter clause, build the filter dict and delegate to the value's own
`filter` capability; otherwise materialise through `all()` when available.
Either way the result is materialised by `list(...)`.  (The filter-dict
construction, whose content the defunctionalised `filter` callable ignores,
cannot raise.) -/
def querysetBranch (filt : Option String) (value : Value) : Except PyErr Value :=
  match filt with
  | some f =>
    if f ≠ "" then do
      let filtered ←
        match getCallableAttr value "filter" with
        | some (Value.func b) => callFunc b
        | _ => Except.error (PyErr.pyException "unreachable")
      let items ← pyToList filtered
      Except.ok (Value.list items)
    else do
      let value ←
        if hasCallableAttr value "all" then
          match getCallableAttr value "all" with
          | some (Value.func b) => callFunc b
          | _ => Except.error (PyErr.pyException "unreachable")
        else Except.ok value
      let items ← pyToList value
      Except.ok (Value.list items)
  | Option.none => do
    let value ←
      if hasCallableAttr value "all" then
        match getCallableAttr value "all" with
        | some (Value.func b) => callFunc b
        | _ => Except.error (PyErr.pyException "unreachable")
      else Except.ok value
    let items ← pyToList value
    Except.ok (Value.list items)

/-- `value_list = value if isinstance(value, list) else [value]`. -/
def pyCoerceList (value : Value) : List Value :=
  match value with
  | Value.list l => l
  | v => [v]

/-- The filter comprehension step of the plain branch (lines 176-181): with a
non-blank filter clause, keep the items of `value_list` satisfying all
comma-separated conditions; otherwise the value is unchanged. -/
def plainFilterStep (filt : Option String) (valueList : List Value) (value : Value) :
    Except PyErr Value :=
  match filt with
  | some f =>
    if f ≠ "" then do
      let kept ← filterItems ((splitChar ',' f).map strTrim) valueList
      Except.ok (Value.list kept)
    else Except.ok value
  | Option.none => Except.ok value

/-- The plain (non-`QuerySet`) branch of `resolve_segment` (lines 173-184):
coerce to a list, apply the filter comprehension, then run the
`enforce_permissions` loop — whose arity-mismatched call raises `TypeError`
on the first item. -/
def plainBranch (filt : Option String) (value : Value) : Except PyErr Value := do
  let valueList := pyCoerceList value
  let value ← plainFilterStep filt valueList value
  let _ ← enforceLoop valueList
  Except.ok value

/-- The non-list branch of `resolve_segment` (`parser.py` lines 133-184):
attribute retrieval, optional invocation, then the `QuerySet`-like branch or
the plain branch. -/
def scalarResolve (current : Value) (attr : String) (callArgs filt : Option String) :
    Except PyErr Value := do
  -- `value = get_nested_attr(current, attr_name)`; the surrounding
  -- `except (AttributeError, KeyError)` can never fire because
  -- `get_nested_attr` returns `None` for a missing link instead of raising.
  let value ← get_nested_attr current attr
  let value ← invokeStep attr callArgs value
  if hasFilterCap value then querysetBranch filt value
  else plainBranch filt value

/-- The `results.extend(res) / results.append(res)` step of the broadcast
loop: a list result contributes its elements, a scalar result itself. -/
def flattenOne : Value → List Value
  | Value.list l => l
  | v => [v]

mutual

/-- `resolve_segment` (`parser.py`): validate the segment (bracket counts,
then the segment regex), broadcast over a list current value, and otherwise
run the non-list branch `scalarResolve`.  The `perm_user` argument of the
source is threaded but never consumed: the only use site is the
arity-mismatched `enforce_permissions` call. -/
def resolve_segment (current : Value) (segment : String) : Except PyErr Value :=
  if countChar segment '(' ≠ countChar segment ')' then
    Except.error (PyErr.badTag ("Unmatched round brackets in segment: '" ++ segment ++ "'"))
  else if countChar segment '[' ≠ countChar segment ']' then
    Except.error (PyErr.badTag ("Unmatched square brackets in segment: '" ++ segment ++ "'"))
  else
    match matchSegment segment with
    | Option.none => Except.error (PyErr.badTag ("Segment '" ++ segment ++ "' is malformed"))
    | some (attr, callArgs, filt) =>
      match current with
      | Value.list items =>
        match broadcastItems items segment with
        | Except.ok results => Except.ok (Value.list results)
        | Except.error e => Except.error e
      | _ => scalarResolve current attr callArgs filt

/-- The broadcast loop of `resolve_segment` over a list current value: each
item is resolved independently against the same segment; a list result is
spliced in (`results.extend`), a scalar result appended. -/
def broadcastItems (items : List Value) (segment : String) : Except PyErr (List Value) :=
  match items with
  | [] => Except.ok []
  | item :: rest =>
    match resolve_segment item segment with
    | Except.error e => Except.error e
    | Except.ok res =>
      match broadcastItems rest segment with
      | Except.error e => Except.error e
      | Except.ok tail => Except.ok (flattenOne res ++ tail)

end

/-- The segment loop of `resolve_tag_expression`: resolve each segment in
turn, returning the empty string as soon as a segment resolves to `None`. -/
def resolveSegments (current : Value) : List String → Except PyErr Value
  | [] => Except.ok current
  | seg :: rest => do
    let c ← resolve_segment current seg
    if c.isNone then Except.ok (Value.str "") else resolveSegments c rest

/-- `resolve_tag_expression` (`parser.py`): split the expression, return `""`
for an empty first segment, reject segments of only `#`/`%` characters,
special-case a first segment `"now"` (which yields the current timestamp for
the whole expression), and otherwise fold `resolve_segment` over the segments
starting from the context.  The current instant is passed explicitly as
`nowV` in place of `datetime.datetime.now()`. -/
def resolve_tag_expression (nowV : Value) (expr : String) (context : Value) :
    Except PyErr Value :=
  let segments := split_expression expr
  match segments with
  | [] => Except.ok (Value.str "")
  | first :: _ =>
    if first = "" then Except.ok (Value.str "")
    else if segments.any isBadSegment then
      Except.error (PyErr.badTag
        ("Bad characters in tag segments: " ++ pyStr (Value.list (segments.map Value.str))))
    else if strTrim first = "now" then Except.ok nowV
    else resolveSegments context segments

/-! ## `templating/permissions.py`

The request user is modelled as the partially applied permission check
`fun obj => request_user.has_perm("view", obj)`; an absent user is `none`. -/

/-- `is_django_object` (`permissions.py`): the value has a `_meta` attribute. -/
def is_django_object (v : Value) : Bool :=
  match v with
  | Value.obj attrs => (assocGet attrs "_meta").isSome
  | _ => false

/-- `has_view_permission` (`permissions.py`): `False` without a user; the
user's `has_perm("view", obj)` for a Django object; `True` otherwise. -/
def has_view_permission (obj : Value) (requestUser : Option (Value → Bool)) : Bool :=
  match requestUser with
  | Option.none => false
  | some hasPerm => if is_django_object obj then hasPerm obj else true

/-- `enforce_permissions` (`permissions.py`): permission-filter a resolved
value, appending denial messages to the error list.  The function body
contains no `raise`; the `Except` wrapper records in the type that it always
returns normally.  A denied scalar yields the empty string; a list is filtered
to the permitted items with a single error when anything was removed. -/
def enforce_permissions (value : Value) (rawExpr : String) (errors : List String)
    (requestUser : Option (Value → Bool)) (checkPermissions : Bool) :
    Except PyErr (Value × List String) :=
  if ¬ checkPermissions ∨ requestUser.isNone then Except.ok (value, errors)
  else
    match value with
    | Value.list items =>
      let permitted := items.filter
        (fun item => !is_django_object item || has_view_permission item requestUser)
      let anyDenied := items.any
        (fun item => is_django_object item && !has_view_permission item requestUser)
      let errors :=
        if anyDenied then
          errors ++ ["Permission denied for expression '" ++ rawExpr ++ "': "
            ++ pyStr (Value.list items)]
        else errors
      Except.ok (Value.list permitted, errors)
    | v =>
      if is_django_object v ∧ ¬ has_view_permission v requestUser then
        Except.ok (Value.str "",
          errors ++ ["Permission denied for expression '" ++ rawExpr ++ "': " ++ pyStr v])
      else Except.ok (v, errors)

/-! ## `templating/core.py` -/

/-- `has_view_permission` as redefined inside `core.py`: unlike the
`permissions.py` version it returns `False` for a non-Django object (its
docstring claims `True`; the code returns `False`). -/
def coreHasViewPermission (obj : Value) (requestUser : Option (Value → Bool)) : Bool :=
  match requestUser with
  | Option.none => false
  | some hasPerm => if is_django_object obj then hasPerm obj else false

/-- `convert_format` (`formatting.py`): replace the custom date tokens by
`strftime` directives, longest tokens first. -/
def convert_format (customFormat : String) : String :=
  let mapping : List (String × String) :=
    [("MMMM", "%B"), ("YYYY", "%Y"), ("MMM", "%b"), ("ddd", "%a"),
     ("MM", "%m"), ("YY", "%y"), ("dd", "%d"), ("DD", "%A"),
     ("HH", "%H"), ("hh", "%I"), ("mm", "%M"), ("ss", "%S")]
  mapping.foldl (fun acc (p : String × String) => acc.replace p.fst p.snd) customFormat

/-- The processing mode of `process_text`: `mode="normal"` or `mode="table"`. -/
inductive Mode where
  | normal : Mode
  | table : Mode
deriving DecidableEq

/-- Number of non-overlapping occurrences of the two-character pattern `ab` in
`cs` (`text.count(pat)` for the placeholder delimiters). -/
def countTok (a b : Char) : List Char → Nat
  | x :: y :: rest => if x = a ∧ y = b then 1 + countTok a b rest else countTok a b (y :: rest)
  | _ => 0

/-- The opening `"{{"` and closing `"}}"` placeholder delimiters. -/
def openTok : List Char := ['\x7b', '\x7b']

/-- The closing placeholder delimiter. -/
def closeTok : List Char := ['\x7d', '\x7d']

/-- The pure-placeholder test of `process_text`: the trimmed text starts with
`"{{"`, ends with `"}}"`, and contains exactly one occurrence of each. -/
def isPureTag (text : String) : Bool :=
  let p := (strTrim text).toList
  p.take 2 = openTok && p.reverse.take 2 = closeTok.reverse
    && countTok '\x7b' '\x7b' p = 1 && countTok '\x7d' '\x7d' p = 1

mutual

/-- `re.findall(r"\\{\\{(.*?)\\}\\}", text)`: the inner groups of all placeholder
occurrences, scanned left to right.  An opening `\x7b\x7b` with no following
`\x7d\x7d` can start no match — and since any later opening would need a later
closing, the remainder contains no match at all. -/
def findPlaceholders : List Char → List String
  | [] => []
  | [_] => []
  | c1 :: c2 :: rest =>
    if c1 = '\x7b' ∧ c2 = '\x7b' then findPlaceholderInner [] rest
    else findPlaceholders (c2 :: rest)

/-- Scan for the lazy closing `\x7d\x7d` of one placeholder, accumulating the
inner group. -/
def findPlaceholderInner (acc : List Char) : List Char → List String
  | [] => []
  | [_] => []
  | c1 :: c2 :: rest =>
    if c1 = '\x7d' ∧ c2 = '\x7d' then acc.reverse.asString :: findPlaceholders rest
    else findPlaceholderInner (c1 :: acc) (c2 :: rest)

end

mutual

/-- `re.sub(r"\\{\\{(.*?)\\}\\}", replacer, text)` with an effectful replacer
threading a state (the mutable error list of the source); an exception inside
the replacer propagates.  As with `findPlaceholders`, an opening `\x7b\x7b`
with no following `\x7d\x7d` leaves the whole remainder literal. -/
def substPlaceholders {σ : Type} (replacer : String → σ → Except PyErr (String × σ)) :
    List Char → σ → Except PyErr (List Char × σ)
  | [], st => Except.ok ([], st)
  | [c], st => Except.ok ([c], st)
  | c1 :: c2 :: rest, st =>
    if c1 = '\x7b' ∧ c2 = '\x7b' then substPlaceholderInner replacer [] rest st
    else do
      let (tail, st) ← substPlaceholders replacer (c2 :: rest) st
      Except.ok (c1 :: tail, st)

/-- Scan for the lazy closing `\x7d\x7d` of one placeholder, invoke the
replacer on the inner group, and splice its output in; with no closing token
the whole unmatched remainder is literal. -/
def substPlaceholderInner {σ : Type} (replacer : String → σ → Except PyErr (String × σ))
    (acc : List Char) : List Char → σ → Except PyErr (List Char × σ)
  | [], st => Except.ok ('\x7b' :: '\x7b' :: acc.reverse, st)
  | [c], st => Except.ok ('\x7b' :: '\x7b' :: (acc.reverse ++ [c]), st)
  | c1 :: c2 :: rest, st =>
    if c1 = '\x7d' ∧ c2 = '\x7d' then do
      let (rep, st) ← replacer acc.reverse.asString st
      let (tail, st) ← substPlaceholders replacer rest st
      Except.ok (rep.toList ++ tail, st)
    else substPlaceholderInner replacer (c1 :: acc) (c2 :: rest) st

end

/-- `if errors is not None: errors.append(msg)`. -/
def appendErr (errors : Option (List String)) (msg : String) : Option (List String) :=
  errors.map (fun es => es ++ [msg])

/-- The permission-check block repeated inside `process_text` (`core.py`),
using the module's own `has_view_permission`: filter a list value (recording
one error naming the rejected items when any), or replace a denied scalar by
the empty string. -/
def corePermissionFilter (rawExpr : String) (value : Value) (errors : Option (List String))
    (requestUser : Option (Value → Bool)) (checkPermissions : Bool) :
    Value × Option (List String) :=
  if checkPermissions ∧ requestUser.isSome then
    match value with
    | Value.list items =>
      let permitted := items.filter (fun item => coreHasViewPermission item requestUser)
      let notPermitted := items.filter (fun item => !coreHasViewPermission item requestUser)
      if ¬ notPermitted.isEmpty then
        (Value.list permitted,
          appendErr errors ("Permission denied for expression '" ++ rawExpr ++ "': "
            ++ pyStr (Value.list notPermitted)))
      else (Value.list permitted, errors)
    | v =>
      if coreHasViewPermission v requestUser then (v, errors)
      else
        (Value.str "",
          appendErr errors ("Permission denied for expression '" ++ rawExpr ++ "': " ++ pyStr v))
  else (value, errors)

/-- `hasattr(value, "strftime")` for the modelled values. -/
def hasStrftime (value : Value) : Bool :=
  match value with
  | Value.obj attrs => (assocGet attrs "strftime").isSome
  | _ => false

/-- `value.strftime(fmt)` on a modelled date-like value: invoke the
defunctionalised `strftime` attribute (the format argument is ignored by the
defunctionalised callable). -/
def callStrftime (value : Value) : Except PyErr Value :=
  match value with
  | Value.obj attrs =>
    match assocGet attrs "strftime" with
    | some (Value.func b) => callFunc b
    | _ => Except.error (PyErr.typeError "'strftime' attribute is not callable")
  | _ => Except.error (PyErr.typeError "no 'strftime' attribute")

/-- Split a string at its first `|`, as `raw_expr.split("|", 1)`. -/
def splitPipe (s : String) : String × Option String :=
  let cs := s.toList
  let before := cs.takeWhile (fun c => c ≠ '|')
  if before.length = cs.length then (s, Option.none)
  else (before.asString, some ((cs.drop (before.length + 1)).asString))

/-- The pure-placeholder branch of `process_text`: formatting pipe handling,
permission check and mode-dependent recombination. -/
def processPure (nowV : Value) (pureText : String) (context : Value)
    (errors : Option (List String)) (requestUser : Option (Value → Bool))
    (checkPermissions : Bool) (mode : Mode) (delimiter : String) :
    Except PyErr (Value × Option (List String)) := do
  let rawExpr := strTrim ((pureText.toList.drop 2).dropLast.dropLast.asString)
  let resolved ←
    match (splitPipe rawExpr).snd with
    | some fmtPart => do
      let valueExpr := strTrim (splitPipe rawExpr).fst
      let fmtStr := strTrim fmtPart
      let _ := convert_format fmtStr
      let value ← resolve_tag_expression nowV valueExpr context
      if hasStrftime value then
        match callStrftime value with
        | Except.ok v2 => Except.ok (some v2)
        | Except.error _ => Except.ok Option.none
      else Except.ok (some value)
    | Option.none => do
      let value ← resolve_tag_expression nowV rawExpr context
      Except.ok (some value)
  match resolved with
  | Option.none =>
    -- a formatting failure records `raw_expr` and yields the empty string
    Except.ok (Value.str "", appendErr errors rawExpr)
  | some value =>
    let (value, errors) := corePermissionFilter rawExpr value errors requestUser checkPermissions
    match mode with
    | Mode.normal =>
      match value with
      | Value.list items =>
        Except.ok (Value.str (String.intercalate delimiter
          ((items.filter (fun i => !i.isNone)).map pyStr)), errors)
      | v => Except.ok (v, errors)
    | Mode.table =>
      match value with
      | Value.list items =>
        Except.ok (Value.list ((items.filter (fun i => !i.isNone)).map
          (fun i => Value.str (pyStr i))), errors)
      | v => Except.ok (Value.str (pyStr v), errors)

/-- `process_text` (`core.py`): resolve the placeholders of one text span.
A pure placeholder is resolved, permission-checked and recombined by mode; a
mixed text in table mode requires exactly one placeholder and broadcasts a
list value over copies of the text; a mixed text in normal mode substitutes
each placeholder inline and raises `ValueError` when one resolves to a list.
The current instant is passed as `nowV`. -/
def process_text (nowV : Value) (text : String) (context : Value)
    (errors : Option (List String) := Option.none)
    (requestUser : Option (Value → Bool) := Option.none)
    (checkPermissions : Bool := true) (mode : Mode := Mode.normal)
    (delimiter : String := ", ") : Except PyErr (Value × Option (List String)) := do
  if isPureTag text then
    processPure nowV (strTrim text) context errors requestUser checkPermissions mode delimiter
  else
    match mode with
    | Mode.table => do
      let placeholders := findPlaceholders text.toList
      match placeholders with
      | [rawExpr0] => do
        let rawExpr := strTrim rawExpr0
        let value ← resolve_tag_expression nowV rawExpr context
        let (value, errors) :=
          corePermissionFilter rawExpr value errors requestUser checkPermissions
        match value with
        | Value.list items =>
          let results ← items.mapM (fun item => do
            let (out, _) ← substPlaceholders
              (fun _ (st : Unit) => Except.ok (pyStr item, st)) text.toList ()
            Except.ok (Value.str out.asString))
          Except.ok (Value.list results, errors)
        | _ => do
          let (out, _) ← substPlaceholders
            (fun inner (st : Unit) => do
              let v ← resolve_tag_expression nowV (strTrim inner) context
              Except.ok (pyStr v, st)) text.toList ()
          Except.ok (Value.str out.asString, errors)
      | _ =>
        Except.error (PyErr.valueError
          "Table mode supports mixed text with exactly one placeholder.")
    | Mode.normal => do
      let replacer := fun (inner : String) (errs : Option (List String)) => do
        let rawExpr := strTrim inner
        let val ← resolve_tag_expression nowV rawExpr context
        let (val, errs) := corePermissionFilter rawExpr val errs requestUser checkPermissions
        if val.isList then
          Except.error (PyErr.valueError
            ("Cannot render list in mixed text in normal mode: \x7b\x7b" ++ inner ++ "\x7d\x7d"))
        else Except.ok (pyStr val, errs)
      let (out, errors) ← substPlaceholders replacer text.toList errors
      Except.ok (Value.str out.asString, errors)

/-! ## `office_renderer/loops.py`

A shape is modelled by its loop-directive content: `startDir` is the
`(variable, collection)` pair extracted by `extract_loop_directive` when the
shape's text matches `LOOP_START_PATTERN`, and `endDir` records a
`LOOP_END_PATTERN` match.  (The spec's §6 page/marker enumeration collaborator
supplies exactly these two predicates and this extractor; the regexes
themselves act on shape text that the planner otherwise ignores.)

`resolve_tag` is imported by `loops.py` from `..templating` but is absent from
the source tree; modelled from the spec ("resolve the loop's collection
expression once against the ambient context") as an explicit function
parameter from collection expressions to resolution outcomes. -/

/-- `str(e)` for a modelled exception: its message. -/
def pyErrStr : PyErr → String
  | PyErr.badTag m => m
  | PyErr.missingData m => m
  | PyErr.tagCallable m => m
  | PyErr.typeError m => m
  | PyErr.valueError m => m
  | PyErr.pyException m => m

/-- A shape, abstracted to its loop-directive content. -/
structure Shape where
  startDir : Option (String × String)
  endDir : Bool

/-- A slide: an ordered list of shapes. -/
structure Slide where
  shapes : List Shape

/-- One entry of the slide plan returned by `process_loops`: the index of the
original slide, the 1-based running slide number, and the loop binding
(`loop_var`, `loop_item`) when the entry comes from a loop expansion. -/
structure SlideInfo where
  slideIdx : Nat
  slideNumber : Nat
  binding : Option (String × Value)

/-- A closed loop section recorded by the first pass of `process_loops`. -/
structure LoopSection where
  startIndex : Nat
  endIndex : Nat
  varName : String
  collection : String

/-- State of the first pass of `process_loops`: the open loop (start index,
variable, collection expression) if any, the closed sections, and the error
list. -/
structure ScanState where
  inLoop : Option (Nat × String × String)
  sections : List LoopSection
  errors : List String

/-- One shape of the first-pass shape loop (the body of
`for shape in slide.shapes`): track the latest start directive, the number of
start-directive shapes, whether an end directive was seen, and the
"end without start" errors. -/
def stepShape (inLoop : Bool) (i : Nat)
    (acc : Option (String × String) × Nat × Bool × List String) (shape : Shape) :
    Option (String × String) × Nat × Bool × List String :=
  let (startD, count, hasEnd, errs) := acc
  let (startD, count) :=
    match shape.startDir with
    | some vc => (some vc, count + 1)
    | Option.none => (startD, count)
  if shape.endDir then
    let errs :=
      if ¬ inLoop ∧ startD.isNone then
        errs ++ ["Error on slide " ++ toString (i + 1)
          ++ ": %endloop% without a matching loop start"]
      else errs
    (startD, count, true, errs)
  else (startD, count, hasEnd, errs)

/-- The first-pass shape loop, threading its accumulator. -/
def scanShapesGo (inLoop : Bool) (i : Nat)
    (acc : Option (String × String) × Nat × Bool × List String) :
    List Shape → Option (String × String) × Nat × Bool × List String
  | [] => acc
  | shape :: rest => scanShapesGo inLoop i (stepShape inLoop i acc shape) rest

/-- The shape loop of the first pass, for slide `i`: collect the latest start
directive, the number of start-directive shapes, whether an end directive was
seen, and the "end without start" errors (recorded per end-directive shape
when the machine is outside a loop and no start directive has been seen yet on
this slide). -/
def scanShapes (inLoop : Bool) (i : Nat) (shapes : List Shape) :
    Option (String × String) × Nat × Bool × List String :=
  scanShapesGo inLoop i (Option.none, 0, false, []) shapes

/-- One slide of the first pass of `process_loops`: the multiple-start,
start-and-end, nested-loop, loop-open and loop-close transitions. -/
def stepSlide (st : ScanState) (i : Nat) (slide : Slide) : ScanState :=
  let (startD, count, hasEnd, errs1) := scanShapes st.inLoop.isSome i slide.shapes
  let errors := st.errors ++ errs1
  if count > 1 then
    { st with errors := errors ++ ["Error on slide " ++ toString (i + 1)
        ++ ": Multiple loop start directives on same slide"] }
  else if startD.isSome ∧ hasEnd then
    { st with errors := errors ++ ["Error on slide " ++ toString (i + 1)
        ++ ": Cannot have both loop start and end on the same slide"] }
  else
    match startD with
    | some (v, c) =>
      if st.inLoop.isSome then
        { st with errors := errors ++ ["Error on slide " ++ toString (i + 1)
            ++ ": Nested loops are not supported"] }
      else { st with inLoop := some (i, v, c), errors := errors }
    | Option.none =>
      if hasEnd then
        match st.inLoop with
        | some (startIdx, v, c) =>
          { inLoop := Option.none,
            sections := st.sections ++ [⟨startIdx, i, v, c⟩],
            errors := errors }
        | Option.none => { st with errors := errors }
      else { st with errors := errors }

/-- The first pass of `process_loops` over the slides, starting at index `i`. -/
def scanSlides (st : ScanState) (i : Nat) : List Slide → ScanState
  | [] => st
  | slide :: rest => scanSlides (stepSlide st i slide) (i + 1) rest

/-- Emit the page range `[startI, endI]` as consecutively numbered plan
entries with the given binding, returning the entries and the next slide
number. -/
def emitRange (startI endI counter : Nat) (binding : Option (String × Value)) :
    List SlideInfo × Nat :=
  ((List.range (endI + 1 - startI)).map
    (fun j => ⟨startI + j, counter + j, binding⟩),
   counter + (endI + 1 - startI))

/-- The expansion loop `for loop_item in collection_value:` of
`process_loops`: one full page range per element, in collection order. -/
def expandLoop (sec : LoopSection) (counter : Nat) : List Value → List SlideInfo × Nat
  | [] => ([], counter)
  | item :: rest =>
    let (entries, counter) := emitRange sec.startIndex sec.endIndex counter (some (sec.varName, item))
    let (tail, counter) := expandLoop sec counter rest
    (entries ++ tail, counter)

/-- The section scan for slide `i` in the second pass of `process_loops`:
returns whether `i` lies in some section, the plan entries emitted at `i`, the
updated slide number and the errors recorded.  Mirrors the `continue`
(resolution-failure paths, which emit the section's pages as plain entries and
keep scanning) and `break` (every other in-section case) control flow of the
source. -/
def sectionScan (resolveTag : String → Except PyErr Value) (i counter : Nat) :
    List LoopSection → Bool × List SlideInfo × Nat × List String
  | [] => (false, [], counter, [])
  | sec :: rest =>
    if sec.startIndex ≤ i ∧ i ≤ sec.endIndex then
      if i = sec.startIndex then
        match resolveTag sec.collection with
        | Except.error e =>
          let (entries, counter') := emitRange sec.startIndex sec.endIndex counter Option.none
          let (_, entries2, counter'', errs2) := sectionScan resolveTag i counter' rest
          (true, entries ++ entries2, counter'',
            ["Error on slide " ++ toString (i + 1) ++ ": Failed to resolve collection '"
              ++ sec.collection ++ "': " ++ pyErrStr e] ++ errs2)
        | Except.ok v =>
          if v.isNone then
            let (entries, counter') := emitRange sec.startIndex sec.endIndex counter Option.none
            let (_, entries2, counter'', errs2) := sectionScan resolveTag i counter' rest
            (true, entries ++ entries2, counter'',
              ["Error on slide " ++ toString (i + 1) ++ ": Collection '" ++ sec.collection
                ++ "' not found in context"] ++ errs2)
          else
            match pyToList v with
            | Except.error _ =>
              let (entries, counter') := emitRange sec.startIndex sec.endIndex counter Option.none
              let (_, entries2, counter'', errs2) := sectionScan resolveTag i counter' rest
              (true, entries ++ entries2, counter'',
                ["Error on slide " ++ toString (i + 1) ++ ": '" ++ sec.collection
                  ++ "' is not iterable"] ++ errs2)
            | Except.ok items =>
              let (entries, counter') := expandLoop sec counter items
              (true, entries, counter', [])
      else (true, [], counter, [])
    else
      let (found, entries, counter', errs) := sectionScan resolveTag i counter rest
      (found, entries, counter', errs)

/-- The second pass of `process_loops`: build the plan slide by slide. -/
def planSlides (resolveTag : String → Except PyErr Value) (sections : List LoopSection)
    (i counter : Nat) (errors : List String) :
    List Slide → List SlideInfo × Nat × List String
  | [] => ([], counter, errors)
  | _ :: rest =>
    let (found, entries, counter, errs) := sectionScan resolveTag i counter sections
    if found then
      let (tail, counter, errors') := planSlides resolveTag sections (i + 1) counter (errors ++ errs) rest
      (entries ++ tail, counter, errors')
    else
      let (tail, counter', errors') := planSlides resolveTag sections (i + 1) (counter + 1)
        (errors ++ errs) rest
      (⟨i, counter, Option.none⟩ :: tail, counter', errors')

/-- `process_loops` (`loops.py`): detect loop sections over the slide
sequence, then emit the plan — plain slides passed through once, loop
sections expanded once per collection element (or, on a resolution failure,
emitted once as plain slides together with an error). -/
def process_loops (resolveTag : String → Except PyErr Value) (slides : List Slide) :
    List SlideInfo × List String :=
  let st := scanSlides ⟨Option.none, [], []⟩ 0 slides
  let errors :=
    if st.inLoop.isSome then
      st.errors ++ ["Error: Loop started but never closed with %endloop%"]
    else st.errors
  let (plan, _, errors) := planSlides resolveTag st.sections 0 1 errors slides
  (plan, errors)

/-! ## `office_renderer/pptx.py`

Deck I/O, shape mutation and per-slide text processing are external
collaborators (spec §6); the per-slide processing is abstracted as an oracle
returning the error messages it appends.  What is embedded is the control
flow that the result-contract claims are about: context layering for plan
entries, error accumulation, and the final "save only on an empty error list"
gate. -/

/-- Python dict assignment `d[key] = v` on the association-list model: replace
the first binding of `key`, or append a new one. -/
def pyDictInsert (entries : List (String × Value)) (key : String) (v : Value) :
    List (String × Value) :=
  match entries with
  | [] => [(key, v)]
  | (k, w) :: rest =>
    if k = key then (k, v) :: rest else (k, w) :: pyDictInsert rest key v

/-- `slide_context` built by `render_pptx` (lines 63-72): the ambient context,
then `slide_number`, then — for a loop entry — the loop variable bound to the
loop item, layered on top. -/
def buildSlideContext (context : List (String × Value)) (info : SlideInfo) :
    List (String × Value) :=
  let base := pyDictInsert context "slide_number" (Value.int info.slideNumber)
  match info.binding with
  | some (v, item) => pyDictInsert base v item
  | Option.none => base

/-- Outcome of a top-level render/compose call: the returned
`(output_or_None, errors_or_None)` pair plus whether `prs.save` ran. -/
structure RenderOutcome (α : Type) where
  output : Option α
  errors : Option (List String)
  saved : Bool

/-- The final save gate shared by `render_pptx` and `compose_pptx`
(`pptx.py` lines 77-91 / 178-193): report the errors and withhold the output
when any were accumulated, otherwise save and return the output. -/
def finalGate {α : Type} (output : α) (errors : List String) : RenderOutcome α :=
  if errors.isEmpty then ⟨some output, Option.none, true⟩
  else ⟨Option.none, some errors, false⟩

/-- `render_pptx` (`pptx.py`): plan the slides with `process_loops`, process
each planned slide under its layered context (`processSlide` abstracts
`process_single_slide` and returns the errors it appends), and save the deck
only when the accumulated error list is empty. -/
def render_pptx {α : Type} (resolveTag : String → Except PyErr Value)
    (slides : List Slide) (context : List (String × Value))
    (processSlide : Nat → List (String × Value) → List String) (output : α) :
    RenderOutcome α :=
  let planned := process_loops resolveTag slides
  let errors := planned.fst.foldl
    (fun es info => es ++ processSlide info.slideIdx (buildSlideContext context info))
    planned.snd
  finalGate output errors

/-- `compose_pptx` (`pptx.py` / `pptx/compose.py`): validate the inputs, build
the slides from their layout specifications (per-slide processing abstracted
as `specLayout`/`processSpec`), and save only when the accumulated error list
is empty.  `τ`/`σ` are the template-file and slide-specification types of the
collaborators; the early validation returns of the source are the same
`(None, errors)`-without-saving outcome as the final gate on their
one-element error lists. -/
def compose_pptx {α τ σ : Type} (templateFiles : List τ) (slideSpecs : List σ)
    (layoutMapping : List String) (specLayout : σ → Option String)
    (processSpec : σ → List String) (output : α) : RenderOutcome α :=
  if templateFiles.isEmpty then finalGate output ["No template files provided"]
  else if slideSpecs.isEmpty then finalGate output ["No slides specified"]
  else if layoutMapping.isEmpty then
    finalGate output ["No layout slides found in template files"]
  else
    let step := fun (acc : Nat × List String) (spec : σ) =>
      let (idx, errors) := acc
      match specLayout spec with
      | Option.none =>
        (idx + 1, errors ++ ["Slide " ++ toString (idx + 1) ++ ": Missing 'layout' key"])
      | some layoutId =>
        if layoutMapping.contains layoutId then (idx + 1, errors ++ processSpec spec)
        else
          (idx + 1, errors ++ ["Slide " ++ toString (idx + 1) ++ ": Layout '"
            ++ layoutId ++ "' not found"])
    finalGate output (slideSpecs.foldl step (0, [])).snd

/-- A slide with no loop directives: every shape lacks a start directive and
is not an end marker. -/
def plainSlide (s : Slide) : Prop :=
  ∀ sh ∈ s.shapes, sh.startDir = Option.none ∧ sh.endDir = false

/-- A slide holding exactly one loop-start directive. -/
def startSlide (v c : String) : Slide := ⟨[⟨some (v, c), false⟩]⟩

/-- A slide holding exactly one loop-end directive. -/
def endSlide : Slide := ⟨[⟨Option.none, true⟩]⟩

/-- Spec-side closed form of loop expansion (§4.5 of the spec): for each
element, in collection order, one full replica of the page range
`[startI, endI]` in original intra-range order, with consecutively numbered
slides and the loop variable bound to the element.  Used to state the
loop-cardinality theorem against the embedded planner. -/
def replicaPlan (startI endI counter : Nat) (varName : String) : List Value → List SlideInfo
  | [] => []
  | item :: rest =>
    ((List.range (endI + 1 - startI)).map fun j => ⟨startI + j, counter + j, some (varName, item)⟩)
      ++ replicaPlan startI endI (counter + (endI + 1 - startI)) varName rest

/-! ## Theorems -/

/-- The broadcast loop on a singleton list resolves the single element and
flattens its result one level. -/
theorem broadcastItems_singleton (x : Value) (segment : String) :
    broadcastItems [x] segment = (resolve_segment x segment).map flattenOne := by
  rw [broadcastItems]
  rcases hr : resolve_segment x segment with e | res
  · simp [Except.map]
  · rw [broadcastItems]
    simp [Except.map]

/-- C1: resolving a segment against the singleton list `[x]` yields the same
flattened result as wrapping the scalar resolution against `x` in a list:
broadcasting resolves the segment independently against each element and
flattens exactly one level. -/
theorem c1_broadcast_singleton (x : Value) (segment : String) :
    resolve_segment (Value.list [x]) segment =
      (resolve_segment x segment).map (fun v => Value.list (flattenOne v)) := by
  by_cases h1 : countChar segment '(' ≠ countChar segment ')'
  · rw [resolve_segment, resolve_segment]
    simp [h1, Except.map]
  · by_cases h2 : countChar segment '[' ≠ countChar segment ']'
    · rw [resolve_segment, resolve_segment]
      simp [h1, h2, Except.map]
    · rcases hm : matchSegment segment with _ | ⟨attr, callArgs, filt⟩
      · rw [resolve_segment, resolve_segment]
        simp [h1, h2, hm, Except.map]
      · conv_lhs => rw [resolve_segment]
        simp only [h1, h2, hm, if_neg, ite_false]
        rw [broadcastItems_singleton]
        rcases hr : resolve_segment x segment with e | res <;> simp [Except.map]

/-- C2 (code bug): on the dict `{"name": "Alice"}` and segment `"age"`, the
lookup `get_nested_attr` *succeeds* with `None` instead of raising a lookup
error (so the `MissingData` branch of `resolve_segment` is unreachable), and
the segment resolution then raises the `TypeError` of the arity-mismatched
`enforce_permissions` call — never `MissingData`, contrary to the claim and to
the repository's own tests. -/
theorem c2_missing_attr_not_missing_data :
    get_nested_attr (Value.dict [("name", Value.str "Alice")]) "age" = Except.ok Value.none
    ∧ resolve_segment (Value.dict [("name", Value.str "Alice")]) "age"
        = Except.error (PyErr.typeError enforcePermissionsArityMsg) := by
  constructor
  · rfl
  · rw [resolve_segment]; rfl

/-- C6 (counterexample): on a denied Django-like scalar, `enforce_permissions`
returns normally — `(empty string, error recorded)` — rather than raising
`PermissionDenied`, falsifying the claim that the default behaviour raises. -/
theorem c6_counterexample :
    enforce_permissions (Value.obj [("_meta", Value.bool true)]) "expr" []
        (some (fun _ => false)) true
      = Except.ok (Value.str "", ["Permission denied for expression 'expr': <object>"])
    ∧ enforce_permissions (Value.obj [("_meta", Value.bool true)]) "expr" []
        (some (fun _ => false)) true
      ≠ Except.error (PyErr.pyException "PermissionDenied") := by
  constructor
  · rfl
  · intro h
    rw [show enforce_permissions (Value.obj [("_meta", Value.bool true)]) "expr" []
        (some (fun _ => false)) true
      = Except.ok (Value.str "", ["Permission denied for expression 'expr': <object>"])
      from rfl] at h
    exact Except.noConfusion h

/-- C6 (amended): for every non-list value that is Django-like and rejected by
the request user's permission check, `enforce_permissions` always records one
error naming the expression and substitutes the empty string; it returns
normally and never raises (the source has no raising variant). -/
theorem c6_scalar_denied_records_and_blanks (value : Value) (rawExpr : String)
    (errors : List String) (hasPerm : Value → Bool)
    (hnl : value.isList = false) (hdj : is_django_object value = true)
    (hdeny : hasPerm value = false) :
    enforce_permissions value rawExpr errors (some hasPerm) true
      = Except.ok (Value.str "",
          errors ++ ["Permission denied for expression '" ++ rawExpr ++ "': " ++ pyStr value]) := by
  cases value <;>
    simp_all [enforce_permissions, has_view_permission, is_django_object, Value.isList]

/-- C6 (witness): the amended theorem applied to a concrete denied object. -/
theorem c6_scalar_denied_witness :
    enforce_permissions (Value.obj [("_meta", Value.bool true), ("name", Value.str "x")])
        "e" ["old"] (some (fun _ => false)) true
      = Except.ok (Value.str "",
          ["old", "Permission denied for expression 'e': <object>"]) :=
  c6_scalar_denied_records_and_blanks
    (Value.obj [("_meta", Value.bool true), ("name", Value.str "x")]) "e" ["old"]
    (fun _ => false) rfl rfl rfl

/-- C7 (code bug): on the spec's concrete scenario A — three users of which
the first and third are active — the expression
`program.users[is_active=True].email` raises the `TypeError` of the
arity-mismatched `enforce_permissions` call (at the very first segment)
instead of returning the two emails; the filter comprehension itself, run
directly on the three users, does select users 1 and 3 in order, so the
failure is exactly the permission-loop slip. -/
theorem c7_scenario_a_type_error :
    resolve_tag_expression Value.none "program.users[is_active=True].email"
        (Value.dict [("program", Value.dict [("users", Value.list
          [Value.dict [("email", Value.str "user1@example.com"), ("is_active", Value.bool true)],
           Value.dict [("email", Value.str "user2@example.com"), ("is_active", Value.bool false)],
           Value.dict [("email", Value.str "user3@example.com"), ("is_active", Value.bool true)]])])])
      = Except.error (PyErr.typeError enforcePermissionsArityMsg)
    ∧ filterItems ["is_active=True"]
        [Value.dict [("email", Value.str "user1@example.com"), ("is_active", Value.bool true)],
         Value.dict [("email", Value.str "user2@example.com"), ("is_active", Value.bool false)],
         Value.dict [("email", Value.str "user3@example.com"), ("is_active", Value.bool true)]]
      = Except.ok
        [Value.dict [("email", Value.str "user1@example.com"), ("is_active", Value.bool true)],
         Value.dict [("email", Value.str "user3@example.com"), ("is_active", Value.bool true)]] := by
  constructor
  · rw [resolve_tag_expression]
    simp only [resolveSegments]
    rw [resolve_segment]
    rfl
  · rfl

/-- C9 (counterexample): with the current instant modelled as an object whose
`year` attribute is `2025`, the expression `now.year` resolves to the
timestamp object itself — the trailing segment `year` is never resolved
against it (resolving it would give a different result, here the
`enforce_permissions` arity `TypeError`). -/
theorem c9_counterexample :
    resolve_tag_expression (Value.obj [("year", Value.int 2025)]) "now.year" (Value.dict [])
      = Except.ok (Value.obj [("year", Value.int 2025)])
    ∧ resolve_tag_expression (Value.obj [("year", Value.int 2025)]) "now.year" (Value.dict [])
      ≠ resolveSegments (Value.obj [("year", Value.int 2025)]) ["year"] := by
  have h2 : resolveSegments (Value.obj [("year", Value.int 2025)]) ["year"]
      = Except.error (PyErr.typeError enforcePermissionsArityMsg) := by
    simp only [resolveSegments]
    rw [resolve_segment]
    rfl
  refine ⟨rfl, ?_⟩
  intro h
  rw [h2] at h
  rw [show resolve_tag_expression (Value.obj [("year", Value.int 2025)]) "now.year"
      (Value.dict []) = Except.ok (Value.obj [("year", Value.int 2025)]) from rfl] at h
  exact Except.noConfusion h

/-- C9 (amended): whenever the first segment of an expression trims to the
reserved name `now` (and the expression passes the bad-segment screen), the
whole expression resolves to the current timestamp: lookup, invocation and
filtering are skipped for *all* segments, the trailing ones included. -/
theorem c9_now_short_circuits (nowV : Value) (expr : String) (context : Value)
    (first : String) (rest : List String)
    (hsplit : split_expression expr = first :: rest)
    (hne : first ≠ "")
    (hbad : (first :: rest).any isBadSegment = false)
    (hnow : strTrim first = "now") :
    resolve_tag_expression nowV expr context = Except.ok nowV := by
  rw [resolve_tag_expression, hsplit]
  simp [hne, hbad, hnow]

/-- C9 (witness): the amended theorem applied to `now.year`. -/
theorem c9_now_short_circuits_witness :
    resolve_tag_expression (Value.obj [("year", Value.int 2025)]) "now.year" (Value.dict [])
      = Except.ok (Value.obj [("year", Value.int 2025)]) :=
  c9_now_short_circuits (Value.obj [("year", Value.int 2025)]) "now.year" (Value.dict [])
    "now" ["year"] rfl (by decide) rfl rfl

/-- C10 (counterexample): when the retrieved attribute value is the *empty*
list, the `enforce_permissions` loop of `resolve_segment` runs zero
iterations, so the resolution returns the empty list instead of raising — the
claim's "every such segment resolution raises a TypeError" fails at this
input. -/
theorem c10_counterexample :
    resolve_segment (Value.dict [("xs", Value.list [])]) "xs" = Except.ok (Value.list [])
    ∧ resolve_segment (Value.dict [("xs", Value.list [])]) "xs"
      ≠ Except.error (PyErr.typeError enforcePermissionsArityMsg) := by
  have h : resolve_segment (Value.dict [("xs", Value.list [])]) "xs"
      = Except.ok (Value.list []) := by
    rw [resolve_segment]; rfl
  refine ⟨h, ?_⟩
  intro hc
  rw [h] at hc
  exact Except.noConfusion hc

/-- C10 (amended): whenever segment resolution on a non-list current value
reaches the trailing permission loop with a non-empty coerced value list —
that is, the segment parses, lookup and optional invocation succeed, the
retrieved value has no callable `filter` attribute, and the filter
comprehension (if any) succeeds — the resolution raises the `TypeError` of
the two-argument `enforce_permissions` call, regardless of any permission
user.  (The only escape is a retrieved value equal to the empty list, as in
the counterexample.) -/
theorem c10_arity_type_error (current : Value) (segment attr : String)
    (callArgs filt : Option String) (value value2 value3 : Value)
    (hpar : countChar segment '(' = countChar segment ')')
    (hsq : countChar segment '[' = countChar segment ']')
    (hm : matchSegment segment = some (attr, callArgs, filt))
    (hnl : current.isList = false)
    (hget : get_nested_attr current attr = Except.ok value)
    (hinv : invokeStep attr callArgs value = Except.ok value2)
    (hcap : hasFilterCap value2 = false)
    (hfil : plainFilterStep filt (pyCoerceList value2) value2 = Except.ok value3)
    (hne : pyCoerceList value2 ≠ []) :
    resolve_segment current segment
      = Except.error (PyErr.typeError enforcePermissionsArityMsg) := by
  rw [resolve_segment]
  simp only [hpar, hsq, hm, ne_eq, not_true_eq_false, if_false, ite_false, if_neg,
    not_false_eq_true]
  have hbranch : scalarResolve current attr callArgs filt
      = Except.error (PyErr.typeError enforcePermissionsArityMsg) := by
    rw [scalarResolve]
    rw [hget]
    show (invokeStep attr callArgs value >>= _) = _
    rw [hinv]
    show (if hasFilterCap value2 then _ else plainBranch filt value2) = _
    rw [hcap]
    simp only [Bool.false_eq_true, if_false]
    rw [plainBranch]
    show (plainFilterStep filt (pyCoerceList value2) value2 >>= _) = _
    rw [hfil]
    rcases hl : pyCoerceList value2 with _ | ⟨x, xs⟩
    · exact absurd hl hne
    · rfl
  cases current <;> simp_all [Value.isList]

/-- C10 (witness): the amended theorem at a concrete dict and segment. -/
theorem c10_arity_type_error_witness :
    resolve_segment (Value.dict [("a", Value.int 1)]) "a"
      = Except.error (PyErr.typeError enforcePermissionsArityMsg) :=
  c10_arity_type_error (Value.dict [("a", Value.int 1)]) "a" "a"
    Option.none Option.none (Value.int 1) (Value.int 1) (Value.int 1)
    rfl rfl rfl rfl rfl rfl rfl rfl (by simp [pyCoerceList])

/-- `Except` bind on a success is application (definitional helper). -/
theorem exceptBind_ok {ε α β : Type} (v : α) (f : α → Except ε β) :
    (Except.ok v >>= f) = f v := rfl

/-- `Except` bind on an exception propagates it (definitional helper). -/
theorem exceptBind_err {ε α β : Type} (e : ε) (f : α → Except ε β) :
    ((Except.error e : Except ε α) >>= f) = Except.error e := rfl

/-- Scanning passes a placeholder-free prefix through literally. -/
theorem substPlaceholders_front {σ : Type}
    (replacer : String → σ → Except PyErr (String × σ)) (pre rest : List Char) (st : σ)
    (hpre : ∀ c ∈ pre, c ≠ '\x7b') :
    substPlaceholders replacer (pre ++ rest) st =
      (substPlaceholders replacer rest st).map (fun p => (pre ++ p.fst, p.snd)) := by
  induction pre with
  | nil =>
    rcases h : substPlaceholders replacer rest st with e | p <;> simp [Except.map, h]
  | cons c cs ih =>
    have hc : c ≠ '\x7b' := hpre c (List.mem_cons_self c cs)
    have hcs : ∀ d ∈ cs, d ≠ '\x7b' := fun d hd => hpre d (List.mem_cons_of_mem c hd)
    rcases hcr : cs ++ rest with _ | ⟨c2, rest2⟩
    · rcases List.append_eq_nil.mp hcr with ⟨hcs0, hr0⟩
      subst hcs0; subst hr0
      simp [substPlaceholders, Except.map]
    · rw [List.cons_append, hcr, substPlaceholders]
      rw [if_neg (fun hand => hc hand.left)]
      rw [← hcr, ih hcs]
      rcases h : substPlaceholders replacer rest st with e | p <;>
        simp [Except.map, h, Except.bind, Bind.bind]

/-- Scanning the inside of a placeholder whose inner group contains no `\x7d`
finds the closing token right after it and invokes the replacer on the
accumulator plus the inner group. -/
theorem substPlaceholderInner_close {σ : Type}
    (replacer : String → σ → Except PyErr (String × σ)) (acc e suf : List Char) (st : σ)
    (he : ∀ c ∈ e, c ≠ '\x7d') :
    substPlaceholderInner replacer acc (e ++ '\x7d' :: '\x7d' :: suf) st =
      (do
        let (rep, st) ← replacer (acc.reverse ++ e).asString st
        let (tail, st) ← substPlaceholders replacer suf st
        Except.ok (rep.toList ++ tail, st)) := by
  induction e generalizing acc with
  | nil =>
    rw [List.nil_append, substPlaceholderInner]
    rw [if_pos ⟨rfl, rfl⟩]
    simp
  | cons c cs ih =>
    have hc : c ≠ '\x7d' := he c (List.mem_cons_self c cs)
    have hcs : ∀ d ∈ cs, d ≠ '\x7d' := fun d hd => he d (List.mem_cons_of_mem c hd)
    rcases hcr : cs ++ '\x7d' :: '\x7d' :: suf with _ | ⟨c2, rest2⟩
    · exact absurd hcr (List.append_ne_nil_of_right_ne_nil cs (List.cons_ne_nil _ _))
    · rw [List.cons_append, hcr, substPlaceholderInner]
      rw [if_neg (fun hand => hc hand.left)]
      rw [← hcr, ih (c :: acc) hcs]
      simp

/-- The first component of the `process_text` permission filter on a list
value is again a list. -/
theorem corePermissionFilter_list_isList (rawExpr : String) (l : List Value)
    (errors : Option (List String)) (ru : Option (Value → Bool)) (cp : Bool) :
    (corePermissionFilter rawExpr (Value.list l) errors ru cp).fst.isList = true := by
  rw [corePermissionFilter]
  split
  · dsimp only
    split_ifs <;> simp [Value.isList]
  · simp [Value.isList]

/-- C5 (amended): in inline (normal) mode, a placeholder of a mixed text whose
expression resolves to a list makes `process_text` raise `ValueError` — the
list is not joined with the delimiter.  `pre`/`suf` are the surrounding
literal text (no braces in `pre`, no closing braces in the expression). -/
theorem c5_mixed_list_value_error (nowV context : Value) (errors : Option (List String))
    (ru : Option (Value → Bool)) (cp : Bool) (delim : String) (pre e suf : String)
    (l : List Value)
    (hpre : ∀ c ∈ pre.toList, c ≠ '\x7b')
    (he : ∀ c ∈ e.toList, c ≠ '\x7d')
    (hnp : isPureTag (pre ++ "\x7b\x7b" ++ e ++ "\x7d\x7d" ++ suf) = false)
    (hres : resolve_tag_expression nowV (strTrim e) context = Except.ok (Value.list l)) :
    process_text nowV (pre ++ "\x7b\x7b" ++ e ++ "\x7d\x7d" ++ suf) context errors ru cp
        Mode.normal delim
      = Except.error (PyErr.valueError
          ("Cannot render list in mixed text in normal mode: \x7b\x7b" ++ e ++ "\x7d\x7d")) := by
  rw [process_text]
  rw [hnp]
  simp only [Bool.false_eq_true, if_false]
  have htl : (pre ++ "\x7b\x7b" ++ e ++ "\x7d\x7d" ++ suf).toList =
      pre.toList ++ ('\x7b' :: '\x7b' :: (e.toList ++ '\x7d' :: '\x7d' :: suf.toList)) := by
    simp only [String.data_append, String.toList]
    simp [String.toList]
  rw [htl]
  rw [substPlaceholders_front _ _ _ _ hpre]
  rw [show ∀ (rep : String → Option (List String) → Except PyErr (String × Option (List String)))
      (xs : List Char) (st : Option (List String)),
      substPlaceholders rep ('\x7b' :: '\x7b' :: xs) st = substPlaceholderInner rep [] xs st
    from fun _ _ _ => rfl]
  rw [substPlaceholderInner_close _ _ _ _ _ he]
  simp only [List.reverse_nil, List.nil_append, String.asString_toList]
  rw [hres]
  simp only [exceptBind_ok]
  rw [if_pos (corePermissionFilter_list_isList (strTrim e) l errors ru cp)]
  simp only [exceptBind_err, Except.map]

/-- C5 (counterexample): in inline (normal) mode on the mixed text
`"Hi {{xs}}!"` with `xs` resolving to the (empty) list, `process_text` raises
`ValueError` instead of substituting the delimiter-join (which would yield
`"Hi !"`): processing does raise merely because a resolved value is a list. -/
theorem c5_counterexample :
    process_text Value.none "Hi \x7b\x7bxs\x7d\x7d!" (Value.dict [("xs", Value.list [])])
      = Except.error
          (PyErr.valueError "Cannot render list in mixed text in normal mode: \x7b\x7bxs\x7d\x7d")
    ∧ process_text Value.none "Hi \x7b\x7bxs\x7d\x7d!" (Value.dict [("xs", Value.list [])])
      ≠ Except.ok (Value.str "Hi !", Option.none) := by
  constructor
  · rfl
  · intro h
    rw [show process_text Value.none "Hi \x7b\x7bxs\x7d\x7d!" (Value.dict [("xs", Value.list [])])
        = Except.error
          (PyErr.valueError "Cannot render list in mixed text in normal mode: \x7b\x7bxs\x7d\x7d")
      from rfl] at h
    exact Except.noConfusion h

/-- C5 (witness): the amended theorem applied to the concrete mixed text
`"Hi " ++ "{{" ++ "xs" ++ "}}" ++ "!"` with `xs` bound to a list. -/
theorem c5_mixed_list_value_error_witness :
    process_text Value.none ("Hi " ++ "\x7b\x7b" ++ "xs" ++ "\x7d\x7d" ++ "!")
        (Value.dict [("xs", Value.obj [("filter", Value.func (some Value.none)),
          ("all", Value.func (some (Value.list [Value.int 1, Value.int 2])))])])
        Option.none Option.none true Mode.normal ", "
      = Except.error
          (PyErr.valueError "Cannot render list in mixed text in normal mode: \x7b\x7bxs\x7d\x7d") :=
  c5_mixed_list_value_error Value.none
    (Value.dict [("xs", Value.obj [("filter", Value.func (some Value.none)),
      ("all", Value.func (some (Value.list [Value.int 1, Value.int 2])))])])
    Option.none Option.none true ", " "Hi " "xs" "!" [Value.int 1, Value.int 2]
    (by decide) (by decide) (by decide)
    (by rfl)

/-- Properties of the shared save gate: an error report is non-empty and comes
with no output and no save; a save happens exactly on an empty error list and
returns the output. -/
theorem finalGate_spec {α : Type} (output : α) (errors : List String) :
    (∀ es, (finalGate output errors).errors = some es →
      es ≠ [] ∧ (finalGate output errors).output = Option.none
        ∧ (finalGate output errors).saved = false)
    ∧ ((finalGate output errors).saved = true ↔ (finalGate output errors).errors = Option.none)
    ∧ ((finalGate output errors).errors = Option.none →
        (finalGate output errors).output = some output) := by
  rw [finalGate]
  split
  · rename_i hemp
    refine ⟨fun es hes => Option.noConfusion hes, by simp, fun _ => rfl⟩
  · rename_i hemp
    refine ⟨fun es hes => ?_, by simp, fun h => Option.noConfusion h⟩
    injection hes with h
    subst h
    exact ⟨fun hnil => hemp (by rw [hnil]; rfl), rfl, rfl⟩

/-- C8: both top-level operations return an `(output_or_None, errors_or_None)`
pair and save only on an empty error list: a reported error list is non-empty
and forces `output = none` with nothing persisted, and conversely a saved deck
comes with the output present and no error report.  Stated for `render_pptx`
and `compose_pptx` together. -/
theorem c8_result_contract {α τ σ : Type} (resolveTag : String → Except PyErr Value)
    (slides : List Slide) (context : List (String × Value))
    (processSlide : Nat → List (String × Value) → List String) (output : α)
    (templateFiles : List τ) (slideSpecs : List σ) (layoutMapping : List String)
    (specLayout : σ → Option String) (processSpec : σ → List String) (output2 : α) :
    (∀ es, (render_pptx resolveTag slides context processSlide output).errors = some es →
      es ≠ [] ∧ (render_pptx resolveTag slides context processSlide output).output = Option.none
        ∧ (render_pptx resolveTag slides context processSlide output).saved = false)
    ∧ ((render_pptx resolveTag slides context processSlide output).saved = true ↔
        (render_pptx resolveTag slides context processSlide output).errors = Option.none)
    ∧ ((render_pptx resolveTag slides context processSlide output).errors = Option.none →
        (render_pptx resolveTag slides context processSlide output).output = some output)
    ∧ (∀ es, (compose_pptx templateFiles slideSpecs layoutMapping specLayout processSpec
          output2).errors = some es →
      es ≠ [] ∧ (compose_pptx templateFiles slideSpecs layoutMapping specLayout processSpec
          output2).output = Option.none
        ∧ (compose_pptx templateFiles slideSpecs layoutMapping specLayout processSpec
          output2).saved = false)
    ∧ ((compose_pptx templateFiles slideSpecs layoutMapping specLayout processSpec
          output2).saved = true ↔
        (compose_pptx templateFiles slideSpecs layoutMapping specLayout processSpec
          output2).errors = Option.none)
    ∧ ((compose_pptx templateFiles slideSpecs layoutMapping specLayout processSpec
          output2).errors = Option.none →
        (compose_pptx templateFiles slideSpecs layoutMapping specLayout processSpec
          output2).output = some output2) := by
  have hr : ∃ errs, render_pptx resolveTag slides context processSlide output
      = finalGate output errs := ⟨_, rfl⟩
  have hc : ∃ errs, compose_pptx templateFiles slideSpecs layoutMapping specLayout
      processSpec output2 = finalGate output2 errs := by
    rw [compose_pptx]
    split
    · exact ⟨_, rfl⟩
    · split
      · exact ⟨_, rfl⟩
      · split
        · exact ⟨_, rfl⟩
        · exact ⟨_, rfl⟩
  rcases hr with ⟨errs1, hr⟩
  rcases hc with ⟨errs2, hc⟩
  rw [hr, hc]
  rcases finalGate_spec output errs1 with ⟨h1, h2, h3⟩
  rcases finalGate_spec output2 errs2 with ⟨h4, h5, h6⟩
  exact ⟨h1, h2, h3, h4, h5, h6⟩

/-- C8 (witness): the contract instantiated on a failing render (a loop with
an unresolvable collection forces a non-empty error list, no output, no save)
and a succeeding empty compose input check. -/
theorem c8_result_contract_witness :
    (render_pptx (fun _ => Except.ok Value.none)
        [Slide.mk [Shape.mk (some ("x", "xs")) false], Slide.mk [Shape.mk Option.none true]]
        [] (fun _ _ => []) (0 : Nat)).output = Option.none
    ∧ (render_pptx (fun _ => Except.ok Value.none)
        [Slide.mk [Shape.mk (some ("x", "xs")) false], Slide.mk [Shape.mk Option.none true]]
        [] (fun _ _ => []) (0 : Nat)).saved = false := by
  have h := (c8_result_contract (fun _ => Except.ok Value.none)
    [Slide.mk [Shape.mk (some ("x", "xs")) false], Slide.mk [Shape.mk Option.none true]]
    [] (fun _ _ => []) (0 : Nat) ([] : List Nat) ([] : List Nat) [] (fun _ => Option.none)
    (fun _ => []) (0 : Nat)).1
    ["Error on slide 1: Collection 'xs' not found in context"] (by rfl)
  exact ⟨h.2.1, h.2.2⟩

/-- A directive-free shape leaves the first-pass shape accumulator unchanged. -/
theorem stepShape_plain (inLoop : Bool) (i : Nat)
    (acc : Option (String × String) × Nat × Bool × List String) (shape : Shape)
    (h1 : shape.startDir = Option.none) (h2 : shape.endDir = false) :
    stepShape inLoop i acc shape = acc := by
  rcases acc with ⟨sd, cnt, he, errs⟩
  simp [stepShape, h1, h2]

/-- The shape loop over directive-free shapes returns its accumulator. -/
theorem scanShapesGo_plain (inLoop : Bool) (i : Nat)
    (acc : Option (String × String) × Nat × Bool × List String) (shapes : List Shape)
    (h : ∀ sh ∈ shapes, sh.startDir = Option.none ∧ sh.endDir = false) :
    scanShapesGo inLoop i acc shapes = acc := by
  induction shapes generalizing acc with
  | nil => rfl
  | cons sh rest ih =>
    rw [scanShapesGo]
    rw [stepShape_plain inLoop i acc sh (h sh (List.mem_cons_self sh rest)).1
      (h sh (List.mem_cons_self sh rest)).2]
    exact ih acc (fun s hs => h s (List.mem_cons_of_mem sh hs))

/-- A loop-directive-free slide leaves the first-pass state unchanged. -/
theorem stepSlide_plain (st : ScanState) (i : Nat) (s : Slide) (h : plainSlide s) :
    stepSlide st i s = st := by
  rw [stepSlide, scanShapes, scanShapesGo_plain _ _ _ _ h]
  simp

/-- The first pass over loop-directive-free slides is the identity on its
state. -/
theorem scanSlides_plain (st : ScanState) (i : Nat) (l : List Slide)
    (h : ∀ s ∈ l, plainSlide s) :
    scanSlides st i l = st := by
  induction l generalizing st i with
  | nil => rfl
  | cons s rest ih =>
    rw [scanSlides, stepSlide_plain st i s (h s (List.mem_cons_self s rest))]
    exact ih st (i + 1) (fun s' hs => h s' (List.mem_cons_of_mem s hs))

/-- The first pass decomposes over list append. -/
theorem scanSlides_append (st : ScanState) (i : Nat) (l1 l2 : List Slide) :
    scanSlides st i (l1 ++ l2) = scanSlides (scanSlides st i l1) (i + l1.length) l2 := by
  induction l1 generalizing st i with
  | nil => simp [scanSlides]
  | cons s rest ih =>
    rw [List.cons_append, scanSlides, scanSlides, ih]
    simp only [List.length_cons]
    congr 1
    omega

/-- A start-directive slide opens a loop when the machine is outside one. -/
theorem stepSlide_start (st : ScanState) (i : Nat) (v c : String)
    (h : st.inLoop = Option.none) :
    stepSlide st i (startSlide v c) = ⟨some (i, v, c), st.sections, st.errors⟩ := by
  rw [stepSlide]
  simp [startSlide, scanShapes, scanShapesGo, stepShape, h]

/-- An end-directive slide closes the open loop into a section. -/
theorem stepSlide_end (st : ScanState) (i startIdx : Nat) (v c : String)
    (h : st.inLoop = some (startIdx, v, c)) :
    stepSlide st i endSlide = ⟨Option.none, st.sections ++ [⟨startIdx, i, v, c⟩], st.errors⟩ := by
  rw [stepSlide]
  simp [endSlide, scanShapes, scanShapesGo, stepShape, h]

/-- The first pass over a single well-formed loop section flanked by plain
slides detects exactly that section and no error. -/
theorem firstPass_single_section (pre body post : List Slide) (v c : String)
    (hpre : ∀ s ∈ pre, plainSlide s) (hbody : ∀ s ∈ body, plainSlide s)
    (hpost : ∀ s ∈ post, plainSlide s) :
    scanSlides ⟨Option.none, [], []⟩ 0 (pre ++ startSlide v c :: (body ++ endSlide :: post))
      = ⟨Option.none, [⟨pre.length, pre.length + body.length + 1, v, c⟩], []⟩ := by
  rw [scanSlides_append, scanSlides_plain _ _ _ hpre]
  simp only [Nat.zero_add]
  rw [scanSlides, stepSlide_start _ _ _ _ rfl]
  rw [scanSlides_append, scanSlides_plain _ _ _ hbody]
  rw [scanSlides, stepSlide_end _ _ pre.length v c rfl]
  rw [scanSlides_plain _ _ _ hpost]
  simp
  omega

/-- A slide index outside the only section is not a loop slide and emits
nothing during the section scan. -/
theorem sectionScan_outside (rt : String → Except PyErr Value) (i counter : Nat)
    (sec : LoopSection) (h : i < sec.startIndex ∨ sec.endIndex < i) :
    sectionScan rt i counter [sec] = (false, [], counter, []) := by
  rw [sectionScan]
  rw [if_neg (by omega)]
  rw [sectionScan]

/-- A slide index strictly inside the only section (not its start) is a loop
slide but emits nothing. -/
theorem sectionScan_inside (rt : String → Except PyErr Value) (i counter : Nat)
    (sec : LoopSection) (h1 : sec.startIndex ≤ i) (h2 : i ≤ sec.endIndex)
    (h3 : i ≠ sec.startIndex) :
    sectionScan rt i counter [sec] = (true, [], counter, []) := by
  rw [sectionScan]
  rw [if_pos ⟨h1, h2⟩, if_neg h3]

/-- At the start of the only section, a successful collection resolution emits
the full expansion and no error. -/
theorem sectionScan_start_ok (rt : String → Except PyErr Value) (counter : Nat)
    (sec : LoopSection) (coll : Value) (es : List Value)
    (hle : sec.startIndex ≤ sec.endIndex)
    (hres : rt sec.collection = Except.ok coll) (hnn : coll.isNone = false)
    (hit : pyToList coll = Except.ok es) :
    sectionScan rt sec.startIndex counter [sec]
      = (true, (expandLoop sec counter es).fst, (expandLoop sec counter es).snd, []) := by
  rw [sectionScan]
  rw [if_pos ⟨Nat.le_refl _, hle⟩, if_pos rfl, hres]
  simp only [hnn, Bool.false_eq_true, if_false, hit]

/-- The loop expansion fold equals the spec-side closed form `replicaPlan`,
with the slide counter advanced by `length · range-size`. -/
theorem expandLoop_eq_replicaPlan (sec : LoopSection) (counter : Nat) (es : List Value) :
    expandLoop sec counter es
      = (replicaPlan sec.startIndex sec.endIndex counter sec.varName es,
         counter + es.length * (sec.endIndex + 1 - sec.startIndex)) := by
  induction es generalizing counter with
  | nil => simp [expandLoop, replicaPlan]
  | cons item rest ih =>
    rw [expandLoop, emitRange]
    dsimp only
    rw [ih, replicaPlan]
    simp only [Prod.mk.injEq, List.length_cons]
    exact ⟨trivial, by ring⟩

/-- The second pass over a run of slide indices all outside the only section
emits each slide once, unmodified and consecutively numbered. -/
theorem planSlides_outside_run (rt : String → Except PyErr Value) (sec : LoopSection)
    (l : List Slide) (i counter : Nat) (errors : List String)
    (h : ∀ k, k < l.length → i + k < sec.startIndex ∨ sec.endIndex < i + k) :
    planSlides rt [sec] i counter errors l
      = ((List.range l.length).map (fun k => ⟨i + k, counter + k, Option.none⟩),
         counter + l.length, errors) := by
  induction l generalizing i counter errors with
  | nil => simp [planSlides]
  | cons s rest ih =>
    rw [planSlides, sectionScan_outside rt i counter sec (by have := h 0 (by simp); omega)]
    simp only [Bool.false_eq_true, if_false]
    rw [ih (i + 1) (counter + 1) (errors ++ []) (fun k hk => by
      have := h (k + 1) (by simp; omega)
      omega)]
    simp only [List.length_cons, Prod.mk.injEq]
    refine ⟨?_, by omega, by simp⟩
    rw [List.range_succ_eq_map, List.map_cons, List.map_map]
    simp only [Nat.add_zero, List.cons.injEq]
    refine ⟨trivial, ?_⟩
    apply List.map_congr_left
    intro k _
    simp only [Function.comp_apply, SlideInfo.mk.injEq]
    exact ⟨by omega, by omega, trivial⟩

/-- The second pass over a run of slide indices strictly inside the only
section (past its start) emits nothing. -/
theorem planSlides_inside_run (rt : String → Except PyErr Value) (sec : LoopSection)
    (l : List Slide) (i counter : Nat) (errors : List String)
    (h : ∀ k, k < l.length →
      sec.startIndex ≤ i + k ∧ i + k ≤ sec.endIndex ∧ i + k ≠ sec.startIndex) :
    planSlides rt [sec] i counter errors l = ([], counter, errors) := by
  induction l generalizing i counter errors with
  | nil => rfl
  | cons s rest ih =>
    have h0 := h 0 (by simp)
    rw [planSlides, sectionScan_inside rt i counter sec (by omega) (by omega) (by omega)]
    simp only [if_true]
    rw [ih (i + 1) counter (errors ++ []) (fun k hk => by
      have := h (k + 1) (by simp; omega)
      omega)]
    simp

/-- The second pass decomposes over list append, threading the slide counter
and the error list. -/
theorem planSlides_append (rt : String → Except PyErr Value) (secs : List LoopSection)
    (l1 l2 : List Slide) (i counter : Nat) (errors : List String) :
    planSlides rt secs i counter errors (l1 ++ l2)
      = ((planSlides rt secs i counter errors l1).fst
          ++ (planSlides rt secs (i + l1.length) (planSlides rt secs i counter errors l1).snd.fst
              (planSlides rt secs i counter errors l1).snd.snd l2).fst,
         (planSlides rt secs (i + l1.length) (planSlides rt secs i counter errors l1).snd.fst
              (planSlides rt secs i counter errors l1).snd.snd l2).snd) := by
  induction l1 generalizing i counter errors with
  | nil => simp [planSlides]
  | cons s rest ih =>
    rw [List.cons_append]
    simp only [planSlides]
    rcases hss : sectionScan rt i counter secs with ⟨found, entries, counter1, errs⟩
    dsimp only
    rcases found with _ | _
    · simp only [Bool.false_eq_true, if_false]
      rw [ih]
      simp only [List.length_cons]
      rw [show i + (rest.length + 1) = i + 1 + rest.length from by omega]
      simp [List.cons_append]
    · simp only [if_true]
      rw [ih]
      simp only [List.length_cons, List.append_assoc]
      rw [show i + (rest.length + 1) = i + 1 + rest.length from by omega]

/-- Looking up the just-inserted key yields the inserted value. -/
theorem assocGet_pyDictInsert_self (l : List (String × Value)) (k : String) (x : Value) :
    assocGet (pyDictInsert l k x) k = some x := by
  induction l with
  | nil => simp [pyDictInsert, assocGet]
  | cons p rest ih =>
    rcases p with ⟨k', v'⟩
    rw [pyDictInsert]
    by_cases h : k' = k
    · rw [if_pos h, assocGet, if_pos h]
    · rw [if_neg h, assocGet, if_neg h]
      exact ih

/-- Looking up a different key is unaffected by an insertion. -/
theorem assocGet_pyDictInsert_other (l : List (String × Value)) (k k' : String) (x : Value)
    (h : k' ≠ k) :
    assocGet (pyDictInsert l k x) k' = assocGet l k' := by
  induction l with
  | nil => simp [pyDictInsert, assocGet, Ne.symm h]
  | cons p rest ih =>
    rcases p with ⟨k0, v0⟩
    rw [pyDictInsert]
    by_cases h0 : k0 = k
    · rw [if_pos h0, assocGet, assocGet]
      subst h0
      rw [if_neg (fun hh => h hh.symm), if_neg (fun hh => h hh.symm)]
    · rw [if_neg h0, assocGet, assocGet]
      by_cases h1 : k0 = k'
      · rw [if_pos h1, if_pos h1]
      · rw [if_neg h1, if_neg h1]
        exact ih

/-- Every entry of the spec-side replica plan carries the loop variable bound
to some collection element. -/
theorem replicaPlan_binding (startI endI counter : Nat) (v : String) (es : List Value)
    (info : SlideInfo) (hmem : info ∈ replicaPlan startI endI counter v es) :
    ∃ item, item ∈ es ∧ info.binding = some (v, item) := by
  induction es generalizing counter with
  | nil => simp [replicaPlan] at hmem
  | cons item rest ih =>
    rw [replicaPlan] at hmem
    rcases List.mem_append.mp hmem with hin | hin
    · rcases List.mem_map.mp hin with ⟨j, _, hj⟩
      exact ⟨item, List.mem_cons_self item rest, by rw [← hj]⟩
    · rcases ih _ hin with ⟨item', hmem', hbind⟩
      exact ⟨item', List.mem_cons_of_mem item hmem', hbind⟩

/-- C3: a closed loop section over a collection of `N` elements emits exactly
`N` replicas of its bounded page range `[start, end]`, in collection order —
element 0's full range before element 1's — with consecutively numbered
slides; `N = 0` emits zero pages for the section; pages before and after the
section pass through once, unmodified and in order, and no error is recorded.
Each replica entry carries the loop variable bound to its element, and the
context `render_pptx` builds for it layers that binding (and `slide_number`)
over the ambient context, which is otherwise unchanged. -/
theorem c3_loop_cardinality (resolveTag : String → Except PyErr Value)
    (pre body post : List Slide) (v c : String) (coll : Value) (es : List Value)
    (context : List (String × Value))
    (hpre : ∀ s ∈ pre, plainSlide s) (hbody : ∀ s ∈ body, plainSlide s)
    (hpost : ∀ s ∈ post, plainSlide s)
    (hres : resolveTag c = Except.ok coll) (hnn : coll.isNone = false)
    (hiter : pyToList coll = Except.ok es) :
    process_loops resolveTag (pre ++ startSlide v c :: (body ++ endSlide :: post))
      = ((List.range pre.length).map (fun k => ⟨k, k + 1, Option.none⟩)
          ++ replicaPlan pre.length (pre.length + body.length + 1) (pre.length + 1) v es
          ++ (List.range post.length).map (fun k =>
                ⟨pre.length + body.length + 2 + k,
                 pre.length + 1 + es.length * (body.length + 2) + k, Option.none⟩),
         [])
    ∧ (∀ info ∈ replicaPlan pre.length (pre.length + body.length + 1) (pre.length + 1) v es,
        ∃ item, item ∈ es ∧ info.binding = some (v, item)
          ∧ assocGet (buildSlideContext context info) v = some item
          ∧ ∀ k, k ≠ v → k ≠ "slide_number" →
              assocGet (buildSlideContext context info) k = assocGet context k) := by
  constructor
  · rw [process_loops, firstPass_single_section pre body post v c hpre hbody hpost]
    dsimp only
    simp only [Option.isSome_none, Bool.false_eq_true, if_false]
    rw [planSlides_append]
    rw [planSlides_outside_run resolveTag ⟨pre.length, pre.length + body.length + 1, v, c⟩
      pre 0 1 [] (fun k hk => by dsimp only; omega)]
    dsimp only
    simp only [Nat.zero_add]
    rw [show (startSlide v c :: (body ++ endSlide :: post))
        = startSlide v c :: ((body ++ [endSlide]) ++ post) from by simp]
    rw [planSlides]
    have hstart := sectionScan_start_ok resolveTag (1 + pre.length)
      ⟨pre.length, pre.length + body.length + 1, v, c⟩ coll es
      (by dsimp only; omega) hres hnn hiter
    dsimp only at hstart
    rw [hstart]
    dsimp only
    rw [if_pos rfl]
    rw [expandLoop_eq_replicaPlan]
    dsimp only
    rw [show pre.length + body.length + 1 + 1 - pre.length = body.length + 2 from by omega]
    rw [planSlides_append]
    rw [planSlides_inside_run resolveTag ⟨pre.length, pre.length + body.length + 1, v, c⟩
      (body ++ [endSlide]) (pre.length + 1) _ _ (fun k hk => by
        dsimp only
        simp only [List.length_append, List.length_cons, List.length_nil] at hk
        omega)]
    dsimp only
    rw [planSlides_outside_run resolveTag ⟨pre.length, pre.length + body.length + 1, v, c⟩
      post _ _ _ (fun k hk => by
        dsimp only
        simp only [List.length_append, List.length_cons, List.length_nil]
        omega)]
    simp only [Prod.mk.injEq, List.append_assoc]
    refine ⟨?_, by simp⟩
    rw [Nat.add_comm 1 pre.length]
    congr 1
    · apply List.map_congr_left
      intro k _
      simp only [SlideInfo.mk.injEq]
      refine ⟨?_, ?_, ?_⟩ <;> first | trivial | omega
    congr 1
    apply List.map_congr_left
    intro k _
    simp only [SlideInfo.mk.injEq, List.length_append, List.length_cons, List.length_nil]
    refine ⟨?_, ?_, ?_⟩ <;> first | trivial | omega
  · intro info hmem
    rcases replicaPlan_binding _ _ _ _ _ _ hmem with ⟨item, hitem, hbind⟩
    refine ⟨item, hitem, hbind, ?_, ?_⟩
    · rw [buildSlideContext, hbind]
      exact assocGet_pyDictInsert_self _ _ _
    · intro k hkv hks
      rw [buildSlideContext, hbind]
      rw [assocGet_pyDictInsert_other _ _ _ _ hkv]
      exact assocGet_pyDictInsert_other _ _ _ _ hks

/-- C3 (witness): the loop-cardinality theorem on a concrete five-slide deck —
one plain slide, a loop over a two-element collection around one body slide,
one trailing plain slide — yields the eight-entry plan with bindings. -/
theorem c3_loop_cardinality_witness :
    process_loops
        (fun s => if s = "xs" then Except.ok (Value.list [Value.int 1, Value.int 2])
          else Except.ok Value.none)
        ([Slide.mk []] ++ startSlide "u" "xs" :: ([Slide.mk []] ++ endSlide :: [Slide.mk []]))
      = ((List.range 1).map (fun k => ⟨k, k + 1, Option.none⟩)
          ++ replicaPlan 1 3 2 "u" [Value.int 1, Value.int 2]
          ++ (List.range 1).map (fun k => ⟨4 + k, 8 + k, Option.none⟩), []) := by
  have h := (c3_loop_cardinality
    (fun s => if s = "xs" then Except.ok (Value.list [Value.int 1, Value.int 2])
      else Except.ok Value.none)
    [Slide.mk []] [Slide.mk []] [Slide.mk []] "u" "xs"
    (Value.list [Value.int 1, Value.int 2]) [Value.int 1, Value.int 2] []
    (by intro s hs; simp at hs; subst hs; intro sh hsh; simp at hsh)
    (by intro s hs; simp at hs; subst hs; intro sh hsh; simp at hsh)
    (by intro s hs; simp at hs; subst hs; intro sh hsh; simp at hsh)
    rfl rfl rfl).1
  simpa using h

/-- At the start of the only section, a failed collection resolution — an
exception, a `None` result, or a non-iterable result — emits the section's
page range once as plain entries together with exactly one error message. -/
theorem sectionScan_start_fail (rt : String → Except PyErr Value) (counter : Nat)
    (sec : LoopSection) (hle : sec.startIndex ≤ sec.endIndex)
    (hfail : (∃ e, rt sec.collection = Except.error e)
      ∨ rt sec.collection = Except.ok Value.none
      ∨ ∃ coll em, rt sec.collection = Except.ok coll ∧ coll.isNone = false
          ∧ pyToList coll = Except.error em) :
    ∃ msg, sectionScan rt sec.startIndex counter [sec]
      = (true, (emitRange sec.startIndex sec.endIndex counter Option.none).fst,
         (emitRange sec.startIndex sec.endIndex counter Option.none).snd, [msg]) := by
  rcases hfail with ⟨e, he⟩ | hn | ⟨coll, em, hc, hnn, hem⟩
  · refine ⟨"Error on slide " ++ toString (sec.startIndex + 1)
      ++ ": Failed to resolve collection '" ++ sec.collection ++ "': " ++ pyErrStr e, ?_⟩
    rw [sectionScan, if_pos ⟨Nat.le_refl _, hle⟩, if_pos rfl, he]
    rcases hr : emitRange sec.startIndex sec.endIndex counter Option.none with ⟨entries, c2⟩
    simp [hr, sectionScan]
  · refine ⟨"Error on slide " ++ toString (sec.startIndex + 1) ++ ": Collection '"
      ++ sec.collection ++ "' not found in context", ?_⟩
    rw [sectionScan, if_pos ⟨Nat.le_refl _, hle⟩, if_pos rfl, hn]
    simp only [Value.isNone, if_true]
    rcases hr : emitRange sec.startIndex sec.endIndex counter Option.none with ⟨entries, c2⟩
    simp [hr, sectionScan]
  · refine ⟨"Error on slide " ++ toString (sec.startIndex + 1) ++ ": '"
      ++ sec.collection ++ "' is not iterable", ?_⟩
    rw [sectionScan, if_pos ⟨Nat.le_refl _, hle⟩, if_pos rfl, hc]
    simp only [hnn, Bool.false_eq_true, if_false]
    rw [hem]
    rcases hr : emitRange sec.startIndex sec.endIndex counter Option.none with ⟨entries, c2⟩
    simp [hr, sectionScan]

/-- Mapping over a three-part range splits into three shifted maps. -/
theorem map_range_add3 {α : Type} (h : Nat → α) (a b c : Nat) :
    (List.range (a + b + c)).map h
      = (List.range a).map h
        ++ ((List.range b).map (fun j => h (a + j))
          ++ (List.range c).map (fun j => h (a + b + j))) := by
  rw [List.range_add, List.range_add]
  simp only [List.map_append, List.map_map, List.append_assoc]
  rfl

/-- C4 (amended): a closed loop section whose collection expression fails to
resolve, resolves to `None`, or resolves to a non-iterable value records
exactly one error — but its pages *are* emitted, once each, as plain untemplated
entries, interleaved in order with the pages outside the section, which are
processed normally. -/
theorem c4_failed_collection_emits_plain (resolveTag : String → Except PyErr Value)
    (pre body post : List Slide) (v c : String)
    (hpre : ∀ s ∈ pre, plainSlide s) (hbody : ∀ s ∈ body, plainSlide s)
    (hpost : ∀ s ∈ post, plainSlide s)
    (hfail : (∃ e, resolveTag c = Except.error e)
      ∨ resolveTag c = Except.ok Value.none
      ∨ ∃ coll em, resolveTag c = Except.ok coll ∧ coll.isNone = false
          ∧ pyToList coll = Except.error em) :
    (process_loops resolveTag (pre ++ startSlide v c :: (body ++ endSlide :: post))).fst
      = (List.range (pre.length + body.length + 2 + post.length)).map
          (fun k => ⟨k, k + 1, Option.none⟩)
    ∧ (process_loops resolveTag
        (pre ++ startSlide v c :: (body ++ endSlide :: post))).snd.length = 1 := by
  rcases sectionScan_start_fail resolveTag (1 + pre.length)
      ⟨pre.length, pre.length + body.length + 1, v, c⟩ (by dsimp only; omega) hfail
    with ⟨msg, hsec⟩
  dsimp only at hsec
  have key : process_loops resolveTag (pre ++ startSlide v c :: (body ++ endSlide :: post))
      = ((List.range pre.length).map (fun k => ⟨k, k + 1, Option.none⟩)
          ++ ((List.range (body.length + 2)).map
              (fun j => ⟨pre.length + j, 1 + pre.length + j, Option.none⟩)
            ++ (List.range post.length).map (fun k =>
              ⟨pre.length + body.length + 2 + k,
               1 + pre.length + (body.length + 2) + k, Option.none⟩)),
         [msg]) := by
    rw [process_loops, firstPass_single_section pre body post v c hpre hbody hpost]
    dsimp only
    simp only [Option.isSome_none, Bool.false_eq_true, if_false]
    rw [planSlides_append]
    rw [planSlides_outside_run resolveTag ⟨pre.length, pre.length + body.length + 1, v, c⟩
      pre 0 1 [] (fun k hk => by dsimp only; omega)]
    dsimp only
    simp only [Nat.zero_add]
    rw [show (startSlide v c :: (body ++ endSlide :: post))
        = startSlide v c :: ((body ++ [endSlide]) ++ post) from by simp]
    rw [planSlides]
    rw [hsec]
    dsimp only
    rw [if_pos rfl]
    rw [emitRange]
    dsimp only
    rw [show pre.length + body.length + 1 + 1 - pre.length = body.length + 2 from by omega]
    rw [planSlides_append]
    rw [planSlides_inside_run resolveTag ⟨pre.length, pre.length + body.length + 1, v, c⟩
      (body ++ [endSlide]) (pre.length + 1) _ _ (fun k hk => by
        dsimp only
        simp only [List.length_append, List.length_cons, List.length_nil] at hk
        omega)]
    dsimp only
    rw [planSlides_outside_run resolveTag ⟨pre.length, pre.length + body.length + 1, v, c⟩
      post _ _ _ (fun k hk => by
        dsimp only
        simp only [List.length_append, List.length_cons, List.length_nil]
        omega)]
    simp only [Prod.mk.injEq, List.append_assoc]
    refine ⟨?_, by simp⟩
    congr 2
    · funext k
      simp only [SlideInfo.mk.injEq, List.length_append, List.length_cons, List.length_nil]
      refine ⟨?_, ?_, ?_⟩ <;> first | trivial | omega
    · simp only [List.nil_append, List.length_append, List.length_cons, List.length_nil]
      apply List.map_congr_left
      intro k _
      simp only [SlideInfo.mk.injEq]
      refine ⟨?_, ?_, ?_⟩ <;> first | trivial | omega
  rw [key]
  dsimp only
  constructor
  · rw [show pre.length + body.length + 2 + post.length
        = pre.length + (body.length + 2) + post.length from by omega]
    rw [map_range_add3]
    congr 1
    congr 1
    · apply List.map_congr_left
      intro k _
      simp only [SlideInfo.mk.injEq]
      refine ⟨?_, ?_, ?_⟩ <;> first | trivial | omega
    · apply List.map_congr_left
      intro k _
      simp only [SlideInfo.mk.injEq]
      refine ⟨?_, ?_, ?_⟩ <;> first | trivial | omega
  · rfl

/-- C4 (counterexample): on a two-slide loop section whose collection is
missing from the context, `process_loops` emits the section's two pages as
plain entries (with one error) — it does not skip them as the claim states. -/
theorem c4_counterexample :
    process_loops (fun _ => Except.ok Value.none) [startSlide "x" "xs", endSlide]
      = ([⟨0, 1, Option.none⟩, ⟨1, 2, Option.none⟩],
         ["Error on slide 1: Collection 'xs' not found in context"])
    ∧ (process_loops (fun _ => Except.ok Value.none) [startSlide "x" "xs", endSlide]).fst
        ≠ [] := by
  refine ⟨rfl, ?_⟩
  intro h
  rw [show (process_loops (fun _ => Except.ok Value.none)
      [startSlide "x" "xs", endSlide]).fst
    = [⟨0, 1, Option.none⟩, ⟨1, 2, Option.none⟩] from rfl] at h
  exact List.cons_ne_nil _ _ h

/-- C4 (witness): the amended theorem on the two-slide counterexample deck. -/
theorem c4_failed_collection_witness :
    (process_loops (fun _ => Except.ok Value.none)
        ([] ++ startSlide "x" "xs" :: ([] ++ endSlide :: []))).fst
      = (List.range 2).map (fun k => ⟨k, k + 1, Option.none⟩)
    ∧ (process_loops (fun _ => Except.ok Value.none)
        ([] ++ startSlide "x" "xs" :: ([] ++ endSlide :: []))).snd.length = 1 := by
  have h := c4_failed_collection_emits_plain (fun _ => Except.ok Value.none)
    [] [] [] "x" "xs" (by intro s hs; simp at hs) (by intro s hs; simp at hs)
    (by intro s hs; simp at hs) (Or.inr (Or.inl rfl))
  simpa using h

end OfficeTemplates
